import Mathlib

/-!
Verification development for the multi-version openEO API compatibility layer
(`openeo_driver/views.py`, `openeo_driver/backend.py`, and the process-spec
registry interface of `openeo_driver/processes.py`).

The Python code is shallowly embedded: JSON documents become the inductive
`Json` type (objects are association lists preserving Python dict insertion
order, with in-place update keeping the key position, as Python dicts do),
version strings are compared by parsing dotted numeric components, and
fallible code returns explicit result types. Logging diagnostics (warnings)
are modelled as explicit result components.
-/

set_option autoImplicit false

/-- JSON values, the wire-document universe of the compatibility layer.
Objects are ordered association lists, mirroring Python dict insertion order. -/
inductive Json where
  | null
  | bool (b : Bool)
  | num (n : Int)
  | str (s : String)
  | arr (xs : List Json)
  | obj (kvs : List (String × Json))

/-- A JSON object body: ordered key/value pairs (a Python dict). -/
abbrev JObj := List (String × Json)

/-- Python `key in d` / `d[key]` lookup: value at the first matching key. -/
def alookup {α : Type} : List (String × α) → String → Option α
  | [], _ => none
  | (k, v) :: rest, key => if k = key then some v else alookup rest key

/-- Python `d[key] = v`: replace the value at an existing key in place
(keeping its position), else append the new pair at the end. -/
def aset {α : Type} : List (String × α) → String → α → List (String × α)
  | [], key, v => [(key, v)]
  | (k, w) :: rest, key, v =>
    if k = key then (k, v) :: rest else (k, w) :: aset rest key v

/-- Python `d.setdefault(key, v)`: leave the dict unchanged when the key is
present, else append the pair. -/
def asetdefault {α : Type} (m : List (String × α)) (key : String) (v : α) :
    List (String × α) :=
  if (alookup m key).isSome then m else m ++ [(key, v)]

/-- Python `d.pop(key, default)`: the removed value (if any) and the remaining dict. -/
def apop {α : Type} (m : List (String × α)) (key : String) :
    Option α × List (String × α) :=
  (alookup m key, m.filter fun kv => ¬(kv.1 = key))

/-- Python truthiness of a JSON value (`None`, `False`, `0`, `""`, `[]`, `{}`
are falsy). -/
def truthy : Json → Bool
  | .null => false
  | .bool b => b
  | .num n => ¬(n = 0)
  | .str s => ¬(s = "")
  | .arr xs => ¬xs.isEmpty
  | .obj kvs => ¬kvs.isEmpty

/-- Truthiness of an optional value: Python's `None` default is falsy. -/
def optTruthy : Option Json → Bool
  | none => false
  | some j => truthy j

/-- `openeo.util.deep_get(d, k1, k2, default=None)`: two-level nested lookup,
`none` when the path is not traversable. -/
def deepGet2 (m : JObj) (k1 k2 : String) : Option Json :=
  match alookup m k1 with
  | some (.obj o) => alookup o k2
  | _ => none

/-- Python `key.startswith('_')`, the private-field marker test. -/
def startsWithUnderscore (s : String) : Bool :=
  match s.data with
  | c :: _ => c = '_'
  | [] => false

/-- Drop all fields whose name begins with the private marker
(`views.py` line 695). -/
def stripPrivate (m : JObj) : JObj :=
  m.filter fun kv => !(startsWithUnderscore kv.1)

/-! ## Semantic version comparison (`openeo.capabilities.ComparableVersion`) -/

/-- Split a character list on dots (Python `str.split('.')`). -/
def splitDots : List Char → List (List Char)
  | [] => [[]]
  | c :: cs =>
    if c = '.' then [] :: splitDots cs
    else
      match splitDots cs with
      | g :: gs => (c :: g) :: gs
      | [] => [[c]]

/-- Numeric value of one dotted component. -/
def groupToNat (g : List Char) : Nat := g.foldl (fun n c => n * 10 + (c.toNat - 48)) 0

/-- Parse a version string into its numeric components. -/
def parseVersion (s : String) : List Nat := (splitDots s.data).map groupToNat

/-- Lexicographic comparison of version component lists. -/
def verLt : List Nat → List Nat → Bool
  | [], [] => false
  | [], _ :: _ => true
  | _ :: _, [] => false
  | a :: as, b :: bs => if a < b then true else if b < a then false else verLt as bs

/-- `ComparableVersion(v).below(x)`: strict semantic-version order. -/
def vBelow (v x : String) : Bool := verLt (parseVersion v) (parseVersion x)

/-- `ComparableVersion(v).at_least(x)`. -/
def vAtLeast (v x : String) : Bool := ¬(vBelow v x = true)

/-! ## Version catalog and version resolution (`views.py` lines 33-84) -/

/-- One row of the `API_VERSIONS` table (`ApiVersionInfo` namedtuple). -/
structure ApiVersionInfo where
  version : String
  supported : Bool
  advertised : Bool
  production : Bool
deriving DecidableEq, Repr

/-- The `API_VERSIONS` catalog: URL version token mapped to version info,
in source (discovery) order. -/
def API_VERSIONS : List (String × ApiVersionInfo) :=
  [ ("0.3.0", { version := "0.3.0", supported := false, advertised := false, production := false }),
    ("0.3.1", { version := "0.3.1", supported := false, advertised := false, production := false }),
    ("0.3", { version := "0.3.1", supported := false, advertised := false, production := false }),
    ("0.4.0", { version := "0.4.0", supported := true, advertised := true, production := true }),
    ("0.4.1", { version := "0.4.1", supported := true, advertised := true, production := true }),
    ("0.4.2", { version := "0.4.2", supported := true, advertised := true, production := true }),
    ("0.4", { version := "0.4.2", supported := true, advertised := true, production := true }),
    ("1.0.0", { version := "1.0.0", supported := true, advertised := true, production := false }),
    ("1.0", { version := "1.0.0", supported := true, advertised := true, production := false }) ]

/-- `DEFAULT_VERSION` (`views.py` line 44). -/
def DEFAULT_VERSION : String := "0.4.2"

/-- The advertised version tokens, in catalog (discovery) order: the error
payload of `_pull_version` (`views.py` line 80). -/
def advertised_versions : List String :=
  (API_VERSIONS.filter fun kv => kv.2.advertised = true).map Prod.fst

/-- The `UnsupportedApiVersion` error raised by `_pull_version`:
its code and the version listing embedded in its message. -/
structure UnsupportedApiVersionError where
  code : String
  requested : String
  available : List String
deriving DecidableEq, Repr

/-- `_pull_version` (`views.py` lines 71-84): take the version token from the
request path (absent token means `DEFAULT_VERSION`), fail unless the token is
a supported catalog entry, and publish `(g.request_version, g.api_version)`,
the second component being the canonical version string. -/
def pull_version (version : Option String) :
    Except UnsupportedApiVersionError (String × String) :=
  let v := version.getD DEFAULT_VERSION
  match alookup API_VERSIONS v with
  | some info =>
    if info.supported then .ok (v, info.version)
    else .error { code := "UnsupportedApiVersion", requested := v, available := advertised_versions }
  | none => .error { code := "UnsupportedApiVersion", requested := v, available := advertised_versions }

/-! ### Claims C1 and C10 -/

/-- C1: a version token absent from the catalog, or present with
`supported = false`, makes resolution fail with the `UnsupportedApiVersion`
error whose payload lists exactly the advertised tokens in discovery order
(not merely the supported ones); a present and supported token resolves to
its canonical version string. -/
theorem version_resolution_c1 (token : String) :
    ((alookup API_VERSIONS token = none ∨
        (∃ info, alookup API_VERSIONS token = some info ∧ info.supported = false)) →
      pull_version (some token) =
        .error { code := "UnsupportedApiVersion", requested := token,
                 available := advertised_versions })
    ∧ (∀ info, alookup API_VERSIONS token = some info → info.supported = true →
        pull_version (some token) = .ok (token, info.version))
    ∧ advertised_versions = (API_VERSIONS.filter fun kv => kv.2.advertised = true).map Prod.fst
    ∧ advertised_versions = ["0.4.0", "0.4.1", "0.4.2", "0.4", "1.0.0", "1.0"] := by
  refine ⟨?_, ?_, rfl, by decide⟩
  · intro h
    unfold pull_version
    rcases h with h | ⟨info, hlk, hsup⟩
    · simp [h]
    · simp [hlk, hsup]
  · intro info hlk hsup
    unfold pull_version
    simp [hlk, hsup]

/-- Witness for C1: the unknown token `"0.0.0"`, the known-but-unsupported
token `"0.3"`, and the supported alias `"1.0"`. -/
theorem version_resolution_c1_witness :
    pull_version (some "0.0.0") =
      .error { code := "UnsupportedApiVersion", requested := "0.0.0",
               available := ["0.4.0", "0.4.1", "0.4.2", "0.4", "1.0.0", "1.0"] }
    ∧ pull_version (some "0.3") =
      .error { code := "UnsupportedApiVersion", requested := "0.3",
               available := ["0.4.0", "0.4.1", "0.4.2", "0.4", "1.0.0", "1.0"] }
    ∧ pull_version (some "1.0") = .ok ("1.0", "1.0.0") := by
  refine ⟨?_, ?_, ?_⟩
  · have h := (version_resolution_c1 "0.0.0").1 (by left; decide)
    rw [h]
    have : advertised_versions = ["0.4.0", "0.4.1", "0.4.2", "0.4", "1.0.0", "1.0"] := by decide
    rw [this]
  · have h := (version_resolution_c1 "0.3").1
      (Or.inr ⟨{ version := "0.3.1", supported := false, advertised := false, production := false },
        by decide, by decide⟩)
    rw [h]
    have : advertised_versions = ["0.4.0", "0.4.1", "0.4.2", "0.4", "1.0.0", "1.0"] := by decide
    rw [this]
  · exact (version_resolution_c1 "1.0").2.1
      { version := "1.0.0", supported := true, advertised := true, production := false }
      (by decide) (by decide)

/-- C10: a request path with no version segment resolves to the process-wide
default `"0.4.2"`, a supported catalog entry, and behaves exactly like a path
carrying the token `"0.4.2"`. -/
theorem default_version_c10 :
    pull_version none = pull_version (some "0.4.2")
    ∧ pull_version none = .ok ("0.4.2", "0.4.2")
    ∧ DEFAULT_VERSION = "0.4.2"
    ∧ alookup API_VERSIONS "0.4.2" =
        some { version := "0.4.2", supported := true, advertised := true, production := true } := by
  refine ⟨rfl, rfl, rfl, by decide⟩

/-! ## Endpoint registry (`views.py` lines 157-216) -/

/-- Metadata attached to a registered endpoint
(`EndpointRegistry.EndpointMetadata` namedtuple). -/
structure EndpointMetadata where
  hidden : Bool
  for_version : Option (String → Bool)

/-- One `(path, methods, metadata)` tuple of `EndpointRegistry.get_path_metadata`. -/
abbrev EndpointEntry := String × List String × EndpointMetadata

/-- The filtering condition of `get_capabilities_endpoints` (`views.py` line 206):
`not info.hidden and (info.for_version is None or info.for_version(api_version))`. -/
def endpointIncluded (info : EndpointMetadata) (api_version : String) : Bool :=
  (!info.hidden) &&
    (match info.for_version with
     | none => true
     | some p => p api_version)

/-- Python `set.update`: the union of two method sets (ordered model). -/
def methodsUnion (ms new : List String) : List String :=
  ms ++ new.filter fun m => decide (¬(m ∈ ms))

/-- One step of the `endpoint_methods` accumulation loop
(`views.py` lines 204-207). -/
def groupStep (api_version : String) (acc : List (String × List String))
    (e : EndpointEntry) : List (String × List String) :=
  if endpointIncluded e.2.2 api_version = true then
    match alookup acc e.1 with
    | some ms => aset acc e.1 (methodsUnion ms e.2.1)
    | none => acc ++ [(e.1, methodsUnion [] e.2.1)]
  else acc

/-- The `endpoint_methods` defaultdict after the loop of
`get_capabilities_endpoints`: method sets grouped by path. -/
def groupEndpoints (metadata : List EndpointEntry) (api_version : String) :
    List (String × List String) :=
  metadata.foldl (groupStep api_version) []

/-- Placeholder rendering `p.replace('<', '{').replace('>', '}')`
(`views.py` line 209). -/
def renderPath (s : String) : String :=
  String.mk (s.data.map fun c =>
    if c = '<' then Char.ofNat 123 else if c = '>' then Char.ofNat 125 else c)

/-- `EndpointRegistry.get_capabilities_endpoints` (`views.py` lines 199-212):
the filtered, path-grouped endpoint listing for the capabilities document. -/
def get_capabilities_endpoints (metadata : List EndpointEntry) (api_version : String) :
    List (String × List String) :=
  (groupEndpoints metadata api_version).map fun pm => (renderPath pm.1, pm.2)

/-! ### Association list lemmas -/

theorem alookup_cons {α : Type} (k1 : String) (v1 : α) (rest : List (String × α))
    (key : String) :
    alookup ((k1, v1) :: rest) key = if k1 = key then some v1 else alookup rest key := rfl

theorem alookup_append_of_none {α : Type} {xs : List (String × α)} (ys : List (String × α))
    {k : String} (h : alookup xs k = none) : alookup (xs ++ ys) k = alookup ys k := by
  induction xs with
  | nil => simp
  | cons kv xs ih =>
    obtain ⟨k1, v1⟩ := kv
    rw [List.cons_append, alookup_cons] at *
    by_cases hk : k1 = k
    · simp [hk] at h
    · simp only [hk, if_false] at h ⊢
      exact ih h

theorem alookup_append_of_some {α : Type} {xs : List (String × α)} (ys : List (String × α))
    {k : String} {v : α} (h : alookup xs k = some v) : alookup (xs ++ ys) k = some v := by
  induction xs with
  | nil => simp [alookup] at h
  | cons kv xs ih =>
    obtain ⟨k1, v1⟩ := kv
    rw [List.cons_append, alookup_cons] at *
    by_cases hk : k1 = k
    · simpa [hk] using h
    · simp only [hk, if_false] at h ⊢
      exact ih h

theorem alookup_aset_self {α : Type} (m : List (String × α)) (k : String) (v : α) :
    alookup (aset m k v) k = some v := by
  induction m with
  | nil => simp [aset, alookup]
  | cons kv m ih =>
    obtain ⟨k1, v1⟩ := kv
    unfold aset
    by_cases hk : k1 = k
    · simp [hk, alookup_cons]
    · simp only [hk, if_false]
      rw [alookup_cons]
      simp [hk, ih]

theorem alookup_aset_ne {α : Type} (m : List (String × α)) {k k' : String} (v : α)
    (h : ¬(k = k')) : alookup (aset m k v) k' = alookup m k' := by
  induction m with
  | nil => simp [aset, alookup, h]
  | cons kv m ih =>
    obtain ⟨k1, v1⟩ := kv
    unfold aset
    by_cases hk : k1 = k
    · rw [if_pos hk, alookup_cons, alookup_cons]
      have : ¬(k1 = k') := by rw [hk]; exact h
      simp [this]
    · rw [if_neg hk, alookup_cons, alookup_cons]
      by_cases hk' : k1 = k'
      · simp [hk']
      · simp [hk', ih]

theorem aset_map_fst {α : Type} (m : List (String × α)) (k : String) (v : α)
    (h : ¬(alookup m k = none)) : (aset m k v).map Prod.fst = m.map Prod.fst := by
  induction m with
  | nil => simp [alookup] at h
  | cons kv m ih =>
    obtain ⟨k1, v1⟩ := kv
    unfold aset
    by_cases hk : k1 = k
    · simp [hk]
    · rw [alookup_cons] at h
      simp only [hk, if_false] at h ⊢
      simp [ih h]

theorem alookup_eq_none_iff {α : Type} (m : List (String × α)) (k : String) :
    alookup m k = none ↔ ¬(k ∈ m.map Prod.fst) := by
  induction m with
  | nil => simp [alookup]
  | cons kv m ih =>
    obtain ⟨k1, v1⟩ := kv
    rw [alookup_cons]
    by_cases hk : k1 = k
    · simp [hk]
    · simp [hk, ih, Ne.symm hk]

theorem alookup_of_mem_nodup {α : Type} {m : List (String × α)} {k : String} {v : α}
    (hnodup : (m.map Prod.fst).Nodup) (hm : (k, v) ∈ m) : alookup m k = some v := by
  induction m with
  | nil => simp at hm
  | cons kv m ih =>
    obtain ⟨k1, v1⟩ := kv
    rw [List.map_cons] at hnodup
    rw [alookup_cons]
    rcases List.mem_cons.mp hm with h | h
    · injection h with h1 h2
      subst h1
      subst h2
      simp
    · have hk : ¬(k1 = k) := by
        intro hkk
        subst hkk
        exact (List.nodup_cons.mp hnodup).1 (List.mem_map.mpr ⟨(k1, v), h, rfl⟩)
      simp only [hk, if_false]
      exact ih (List.nodup_cons.mp hnodup).2 h

theorem mem_of_alookup_eq_some {α : Type} {m : List (String × α)} {k : String} {v : α}
    (h : alookup m k = some v) : (k, v) ∈ m := by
  induction m with
  | nil => simp [alookup] at h
  | cons kv m ih =>
    obtain ⟨k1, v1⟩ := kv
    rw [alookup_cons] at h
    by_cases hk : k1 = k
    · rw [if_pos hk] at h
      have : (k, v) = (k1, v1) := by
        rw [hk, Option.some_inj.mp h]
      rw [this]
      exact List.mem_cons_self _ _
    · rw [if_neg hk] at h
      exact List.mem_cons_of_mem _ (ih h)

theorem mem_methodsUnion (ms new : List String) (m : String) :
    m ∈ methodsUnion ms new ↔ m ∈ ms ∨ m ∈ new := by
  unfold methodsUnion
  by_cases h : m ∈ ms
  · simp [h]
  · simp [h, List.mem_filter]

theorem alookup_append_single_ne {α : Type} (acc : List (String × α)) {p q : String}
    (v : α) (h : ¬(p = q)) : alookup (acc ++ [(p, v)]) q = alookup acc q := by
  cases hacc : alookup acc q with
  | some ms => exact alookup_append_of_some _ hacc
  | none =>
    rw [alookup_append_of_none _ hacc, alookup_cons]
    simp [h, alookup]

theorem groupStep_not_included (api_version : String) (acc : List (String × List String))
    (e : EndpointEntry) (h : ¬(endpointIncluded e.2.2 api_version = true)) :
    groupStep api_version acc e = acc := by
  unfold groupStep
  simp [h]

theorem groupFold_alookup_none (api_version : String) (md : List EndpointEntry)
    (acc : List (String × List String)) (q : String) :
    alookup (md.foldl (groupStep api_version) acc) q = none ↔
      (alookup acc q = none ∧
        ∀ ms info, (q, ms, info) ∈ md → ¬(endpointIncluded info api_version = true)) := by
  induction md generalizing acc with
  | nil => simp
  | cons e md ih =>
    obtain ⟨p, pms, info0⟩ := e
    rw [List.foldl_cons, ih]
    by_cases hinc : endpointIncluded info0 api_version = true
    · by_cases hq : p = q
      · subst hq
        have hstep : ¬(alookup (groupStep api_version acc (p, pms, info0)) p = none) := by
          unfold groupStep
          simp only [hinc, if_pos]
          cases hacc : alookup acc p with
          | some ms => simp [alookup_aset_self]
          | none =>
            rw [alookup_append_of_none _ hacc, alookup_cons]
            simp
        constructor
        · intro ⟨h1, _⟩
          exact absurd h1 hstep
        · intro ⟨_, h2⟩
          exact absurd hinc (h2 pms info0 (List.mem_cons_self _ _))
      · have hstep : alookup (groupStep api_version acc (p, pms, info0)) q = alookup acc q := by
          unfold groupStep
          simp only [hinc, if_pos]
          cases hacc : alookup acc p with
          | some ms => exact alookup_aset_ne _ _ hq
          | none => exact alookup_append_single_ne _ _ hq
        rw [hstep]
        constructor
        · intro ⟨h1, h2⟩
          refine ⟨h1, fun ms info hmem => ?_⟩
          rcases List.mem_cons.mp hmem with heq | hmem'
          · injection heq with heq1 _
            exact absurd heq1.symm hq
          · exact h2 ms info hmem'
        · intro ⟨h1, h2⟩
          exact ⟨h1, fun ms info hmem => h2 ms info (List.mem_cons_of_mem _ hmem)⟩
    · rw [groupStep_not_included _ _ _ hinc]
      constructor
      · intro ⟨h1, h2⟩
        refine ⟨h1, fun ms info hmem => ?_⟩
        rcases List.mem_cons.mp hmem with heq | hmem'
        · injection heq with _ heq2
          injection heq2 with _ heq3
          rw [heq3]
          exact hinc
        · exact h2 ms info hmem'
      · intro ⟨h1, h2⟩
        exact ⟨h1, fun ms info hmem => h2 ms info (List.mem_cons_of_mem _ hmem)⟩

theorem groupFold_methods (api_version : String) (md : List EndpointEntry)
    (acc : List (String × List String)) (q : String) (x : String) :
    (∃ ms, alookup (md.foldl (groupStep api_version) acc) q = some ms ∧ x ∈ ms) ↔
      ((∃ ms, alookup acc q = some ms ∧ x ∈ ms) ∨
        (∃ ms info, (q, ms, info) ∈ md ∧ endpointIncluded info api_version = true ∧ x ∈ ms)) := by
  induction md generalizing acc with
  | nil => simp
  | cons e md ih =>
    obtain ⟨p, pms, info0⟩ := e
    rw [List.foldl_cons, ih]
    by_cases hinc : endpointIncluded info0 api_version = true
    · by_cases hq : p = q
      · subst hq
        cases hacc : alookup acc p with
        | some ms0 =>
          have hstep : alookup (groupStep api_version acc (p, pms, info0)) p
              = some (methodsUnion ms0 pms) := by
            unfold groupStep
            simp only [hinc, if_pos, hacc]
            exact alookup_aset_self _ _ _
          rw [hstep]
          constructor
          · intro h
            rcases h with ⟨ms, hms, hx⟩ | hmd
            · have hmseq : ms = methodsUnion ms0 pms := Option.some_inj.mp hms.symm
              subst hmseq
              rcases (mem_methodsUnion _ _ _).mp hx with h0 | hp
              · exact Or.inl ⟨ms0, rfl, h0⟩
              · exact Or.inr ⟨pms, info0, List.mem_cons_self _ _, hinc, hp⟩
            · rcases hmd with ⟨ms, info, hmem, hi, hx⟩
              exact Or.inr ⟨ms, info, List.mem_cons_of_mem _ hmem, hi, hx⟩
          · intro h
            rcases h with ⟨ms, hms, hx⟩ | ⟨ms, info, hmem, hi, hx⟩
            · have hmseq : ms0 = ms := Option.some_inj.mp hms
              subst hmseq
              exact Or.inl ⟨_, rfl, (mem_methodsUnion _ _ _).mpr (Or.inl hx)⟩
            · rcases List.mem_cons.mp hmem with heq | hmem'
              · injection heq with _ heq2
                injection heq2 with heq3 _
                subst heq3
                exact Or.inl ⟨_, rfl, (mem_methodsUnion _ _ _).mpr (Or.inr hx)⟩
              · exact Or.inr ⟨ms, info, hmem', hi, hx⟩
        | none =>
          have hstep : alookup (groupStep api_version acc (p, pms, info0)) p
              = some (methodsUnion [] pms) := by
            unfold groupStep
            simp only [hinc, if_pos, hacc]
            rw [alookup_append_of_none _ hacc, alookup_cons]
            simp
          rw [hstep]
          constructor
          · intro h
            rcases h with ⟨ms, hms, hx⟩ | hmd
            · have hmseq : ms = methodsUnion [] pms := Option.some_inj.mp hms.symm
              subst hmseq
              rcases (mem_methodsUnion _ _ _).mp hx with h0 | hp
              · simp at h0
              · exact Or.inr ⟨pms, info0, List.mem_cons_self _ _, hinc, hp⟩
            · rcases hmd with ⟨ms, info, hmem, hi, hx⟩
              exact Or.inr ⟨ms, info, List.mem_cons_of_mem _ hmem, hi, hx⟩
          · intro h
            rcases h with ⟨ms, hms, hx⟩ | ⟨ms, info, hmem, hi, hx⟩
            · exact absurd hms (by simp)
            · rcases List.mem_cons.mp hmem with heq | hmem'
              · injection heq with _ heq2
                injection heq2 with heq3 _
                subst heq3
                exact Or.inl ⟨_, rfl, (mem_methodsUnion _ _ _).mpr (Or.inr hx)⟩
              · exact Or.inr ⟨ms, info, hmem', hi, hx⟩
      · have hstep : alookup (groupStep api_version acc (p, pms, info0)) q = alookup acc q := by
          unfold groupStep
          simp only [hinc, if_pos]
          cases hacc : alookup acc p with
          | some ms => exact alookup_aset_ne _ _ hq
          | none => exact alookup_append_single_ne _ _ hq
        rw [hstep]
        constructor
        · intro h
          rcases h with hacc' | ⟨ms, info, hmem, hi, hx⟩
          · exact Or.inl hacc'
          · exact Or.inr ⟨ms, info, List.mem_cons_of_mem _ hmem, hi, hx⟩
        · intro h
          rcases h with hacc' | ⟨ms, info, hmem, hi, hx⟩
          · exact Or.inl hacc'
          · rcases List.mem_cons.mp hmem with heq | hmem'
            · injection heq with heq1 _
              exact absurd heq1.symm hq
            · exact Or.inr ⟨ms, info, hmem', hi, hx⟩
    · rw [groupStep_not_included _ _ _ hinc]
      constructor
      · intro h
        rcases h with hacc' | ⟨ms, info, hmem, hi, hx⟩
        · exact Or.inl hacc'
        · exact Or.inr ⟨ms, info, List.mem_cons_of_mem _ hmem, hi, hx⟩
      · intro h
        rcases h with hacc' | ⟨ms, info, hmem, hi, hx⟩
        · exact Or.inl hacc'
        · rcases List.mem_cons.mp hmem with heq | hmem'
          · injection heq with _ heq2
            injection heq2 with heq3 heq4
            subst heq4
            exact absurd hi hinc
          · exact Or.inr ⟨ms, info, hmem', hi, hx⟩

theorem groupFold_keys_nodup (api_version : String) (md : List EndpointEntry)
    (acc : List (String × List String)) (h : (acc.map Prod.fst).Nodup) :
    ((md.foldl (groupStep api_version) acc).map Prod.fst).Nodup := by
  induction md generalizing acc with
  | nil => exact h
  | cons e md ih =>
    obtain ⟨p, pms, info0⟩ := e
    rw [List.foldl_cons]
    refine ih _ ?_
    unfold groupStep
    by_cases hinc : endpointIncluded info0 api_version = true
    · simp only [hinc, if_pos]
      cases hacc : alookup acc p with
      | some ms =>
        rw [aset_map_fst _ _ _ (by simp [hacc])]
        exact h
      | none =>
        rw [List.map_append]
        simp only [List.map_cons, List.map_nil]
        rw [List.nodup_append]
        refine ⟨h, List.nodup_singleton _, ?_⟩
        intro a ha hb
        simp only [List.mem_singleton] at hb
        subst hb
        exact ((alookup_eq_none_iff acc a).mp hacc) ha
    · simp only [hinc, if_neg, if_false]
      exact h

/-! ### Claims C4 and C6 -/

/-- C4: for a registry whose rendered path templates are distinct, the
capability listing contains an endpoint's path precisely when its hidden flag
is false and its version predicate is absent or accepts the canonical
version; in particular a hidden endpoint never appears and a predicate-gated
endpoint appears exactly for accepted versions (see the witness). -/
theorem capability_filtering_c4 (metadata : List EndpointEntry) (api_version : String)
    (hnodup : (metadata.map fun e => renderPath e.1).Nodup)
    (path : String) (methods : List String) (info : EndpointMetadata)
    (hmem : (path, methods, info) ∈ metadata) :
    renderPath path ∈ (get_capabilities_endpoints metadata api_version).map Prod.fst
      ↔ endpointIncluded info api_version = true := by
  have hkeys : (get_capabilities_endpoints metadata api_version).map Prod.fst
      = (groupEndpoints metadata api_version).map fun pm => renderPath pm.1 := by
    unfold get_capabilities_endpoints
    rw [List.map_map]
    rfl
  rw [hkeys]
  constructor
  · intro hin
    rcases List.mem_map.mp hin with ⟨pm, hpmmem, heq⟩
    obtain ⟨q, ms⟩ := pm
    have halook : alookup (groupEndpoints metadata api_version) q = some ms :=
      alookup_of_mem_nodup (groupFold_keys_nodup _ _ _ (by simp)) hpmmem
    have hex : ∃ ms' info', (q, ms', info') ∈ metadata
        ∧ endpointIncluded info' api_version = true := by
      by_contra hcon
      push_neg at hcon
      have : alookup (groupEndpoints metadata api_version) q = none :=
        (groupFold_alookup_none api_version metadata [] q).mpr
          ⟨rfl, fun ms' info' hm hi => hcon ms' info' hm hi⟩
      rw [this] at halook
      exact Option.noConfusion halook
    rcases hex with ⟨ms', info', hmem', hinc'⟩
    have hentq : ((q, ms', info') : EndpointEntry) = (path, methods, info) :=
      List.inj_on_of_nodup_map hnodup hmem' hmem (by simpa using heq)
    injection hentq with _ h2
    injection h2 with _ h3
    rw [← h3]
    exact hinc'
  · intro hinc
    have hnotnone : ¬(alookup (groupEndpoints metadata api_version) path = none) := by
      intro hnone
      have := ((groupFold_alookup_none api_version metadata [] path).mp hnone).2
      exact absurd hinc (this methods info hmem)
    cases halook : alookup (groupEndpoints metadata api_version) path with
    | none => exact absurd halook hnotnone
    | some ms =>
      exact List.mem_map.mpr ⟨(path, ms), mem_of_alookup_eq_some halook, rfl⟩

/-- Test registry for the C4 witness: one hidden endpoint and one endpoint
gated on `at_least("1.0.0")` (as in `test_capabilities_endpoints_issue_28`). -/
def capabilitiesTestMetadata : List EndpointEntry :=
  [("/secret", ["GET"], { hidden := true, for_version := none }),
   ("/file_formats", ["GET"], { hidden := false, for_version := some fun v => vAtLeast v "1.0.0" })]

/-- Witness for C4: the hidden endpoint never appears, and the
`at_least("1.0.0")` endpoint appears for version `"1.0.0"` but not `"0.4.0"`. -/
theorem capability_filtering_c4_witness :
    ¬(renderPath "/secret"
        ∈ (get_capabilities_endpoints capabilitiesTestMetadata "1.0.0").map Prod.fst)
    ∧ renderPath "/file_formats"
        ∈ (get_capabilities_endpoints capabilitiesTestMetadata "1.0.0").map Prod.fst
    ∧ ¬(renderPath "/file_formats"
        ∈ (get_capabilities_endpoints capabilitiesTestMetadata "0.4.0").map Prod.fst) := by
  have hnodup : (capabilitiesTestMetadata.map fun e => renderPath e.1).Nodup := by decide
  refine ⟨?_, ?_, ?_⟩
  · intro hin
    have h := (capability_filtering_c4 capabilitiesTestMetadata "1.0.0" hnodup "/secret" ["GET"]
        { hidden := true, for_version := none }
        (List.mem_cons_self _ _)).mp hin
    exact absurd h (by decide)
  · exact (capability_filtering_c4 capabilitiesTestMetadata "1.0.0" hnodup "/file_formats" ["GET"]
        { hidden := false, for_version := some fun v => vAtLeast v "1.0.0" }
        (List.mem_cons_of_mem _ (List.mem_cons_self _ _))).mpr (by decide)
  · intro hin
    have h := (capability_filtering_c4 capabilitiesTestMetadata "0.4.0" hnodup "/file_formats" ["GET"]
        { hidden := false, for_version := some fun v => vAtLeast v "1.0.0" }
        (List.mem_cons_of_mem _ (List.mem_cons_self _ _))).mp hin
    exact absurd h (by decide)

/-- C6 counterexample: registering the same `(path, method)` pair twice does
not fail at startup; `get_capabilities_endpoints` just merges the duplicate
into one ordinary listing entry (the source defines no
`DuplicateEndpointRegistration` error at all). -/
theorem endpoint_duplicate_c6_counterexample :
    get_capabilities_endpoints
        [("/foo", ["GET"], { hidden := false, for_version := none }),
         ("/foo", ["GET"], { hidden := false, for_version := none })] "1.0.0"
      = [("/foo", ["GET"])] := by
  decide

/-- C6 (amended): registrations sharing a path template are merged into a
single listing entry per path (paths in the grouped listing are unique) whose
method set is the union of the method sets of all passing registrations for
that path; duplicate `(path, method)` pairs are silently absorbed by this
union rather than raising any startup error. -/
theorem endpoint_merge_c6 (metadata : List EndpointEntry) (api_version : String) :
    ((groupEndpoints metadata api_version).map Prod.fst).Nodup
    ∧ (∀ q ms, (q, ms) ∈ groupEndpoints metadata api_version →
        ∀ x, x ∈ ms ↔ ∃ methods info, (q, methods, info) ∈ metadata
          ∧ endpointIncluded info api_version = true ∧ x ∈ methods)
    ∧ get_capabilities_endpoints metadata api_version =
        (groupEndpoints metadata api_version).map fun pm => (renderPath pm.1, pm.2) := by
  refine ⟨groupFold_keys_nodup _ _ _ (by simp), ?_, rfl⟩
  intro q ms hmem x
  have halook : alookup (groupEndpoints metadata api_version) q = some ms :=
    alookup_of_mem_nodup (groupFold_keys_nodup _ _ _ (by simp)) hmem
  constructor
  · intro hx
    have h := (groupFold_methods api_version metadata [] q x).mp ⟨ms, halook, hx⟩
    rcases h with ⟨ms', h', _⟩ | h
    · simp [alookup] at h'
    · exact h
  · intro ⟨methods, info, hm, hi, hx⟩
    have h := (groupFold_methods api_version metadata [] q x).mpr
      (Or.inr ⟨methods, info, hm, hi, hx⟩)
    rcases h with ⟨ms', halook', hx'⟩
    have : ms = ms' := by
      have := halook.symm.trans halook'
      exact Option.some_inj.mp this
    rw [this]
    exact hx'

/-- Witness for C6: two registrations of `/foo` (one `GET`, one `POST`) merge
into the single entry whose method set is the union. -/
theorem endpoint_merge_c6_witness :
    groupEndpoints
        [("/foo", ["GET"], { hidden := false, for_version := none }),
         ("/foo", ["POST"], { hidden := false, for_version := none })] "1.0.0"
      = [("/foo", ["GET", "POST"])]
    ∧ (∃ methods info,
        ("/foo", methods, info) ∈
          ([("/foo", ["GET"], { hidden := false, for_version := none }),
            ("/foo", ["POST"], { hidden := false, for_version := none })] : List EndpointEntry)
        ∧ endpointIncluded info "1.0.0" = true ∧ "POST" ∈ methods) := by
  refine ⟨by decide, ?_⟩
  have h := (endpoint_merge_c6
      [("/foo", ["GET"], { hidden := false, for_version := none }),
       ("/foo", ["POST"], { hidden := false, for_version := none })] "1.0.0").2.1
      "/foo" ["GET", "POST"] (by decide) "POST"
  exact h.mp (by decide)

/-! ## Collection metadata normalization (`views.py` lines 689-753) -/

/-- The warning diagnostics logged by `_normalize_collection_metadata`:
`style040 f` is "Collection metadata 'f' in API 0.4 style instead of 1.0
style"; `missingField c k` is "Collection c metadata does not have field k." -/
inductive CollWarning where
  | style040 (field : String)
  | missingField (collection_id : Json) (field : String)

/-- Python `metadata[k1][k2] = v` after the value at `k1` is known: update the
nested dict in place; `none` models the `TypeError` when the value at `k1` is
not a dict. -/
def setNested (m : JObj) (k1 k2 : String) (v : Json) : Option JObj :=
  match alookup m k1 with
  | some (.obj o) => some (aset m k1 (.obj (aset o k2 v)))
  | _ => none

/-- The version-dependent compound-field remapping
(`views.py` lines 703-722), with the warnings it logs. -/
def versionRemap (m : JObj) (api_version : String) (full : Bool) :
    Option (JObj × List CollWarning) :=
  let cube_dims_100 := alookup m "cube:dimensions"
  let cube_dims_040 := deepGet2 m "properties" "cube:dimensions"
  let eo_bands_100 := deepGet2 m "summaries" "eo:bands"
  let eo_bands_040 := deepGet2 m "properties" "eo:bands"
  if vBelow api_version "1.0.0" then
    let step1 : Option JObj :=
      if full && !(optTruthy cube_dims_040) && optTruthy cube_dims_100 then
        setNested (asetdefault m "properties" (.obj [])) "properties" "cube:dimensions"
          (cube_dims_100.getD .null)
      else some m
    match step1 with
    | none => none
    | some m1 =>
      if full && !(optTruthy eo_bands_040) && optTruthy eo_bands_100 then
        match setNested (asetdefault m1 "properties" (.obj [])) "properties" "eo:bands"
            (eo_bands_100.getD .null) with
        | none => none
        | some m2 => some (m2, [])
      else some (m1, [])
  else
    let s1 : JObj × List CollWarning :=
      if full && !(optTruthy cube_dims_100) && optTruthy cube_dims_040 then
        (aset m "cube:dimensions" (cube_dims_040.getD .null), [.style040 "cube:dimensions"])
      else (m, [])
    if full && !(optTruthy eo_bands_100) && optTruthy eo_bands_040 then
      match setNested (asetdefault s1.1 "summaries" (.obj [])) "summaries" "eo:bands"
          (eo_bands_040.getD .null) with
      | none => none
      | some m2 => some (m2, s1.2 ++ [.style040 "eo:bands"])
    else some s1

/-- The silent required-field defaults (`views.py` lines 725-728). -/
def applyDefaults (m : JObj) (api_version : String) (collection_id : Json) : JObj :=
  asetdefault (asetdefault (asetdefault (asetdefault m
    "stac_version" (.str (if vAtLeast api_version "1.0.0" then "0.9.0" else "0.6.2")))
    "links" (.arr []))
    "description" collection_id)
    "license" (.str "proprietary")

/-- The `extent` fallback value (`views.py` line 731). -/
def extentFallback : Json :=
  .obj [("spatial", .arr [.num 0, .num 0, .num 0, .num 0]),
        ("temporal", .arr [.null, .null])]

/-- The ordered `fallbacks` dict (`views.py` lines 730-739). -/
def fallbackKeys (api_version : String) (full : Bool) : List (String × Json) :=
  [("extent", extentFallback)] ++
    (if full then
      (if vAtLeast api_version "1.0.0" then
        [("cube:dimensions", .obj []), ("summaries", .obj [])]
      else
        [("properties", .obj []), ("other_properties", .obj [])])
    else [])

/-- The fallback loop (`views.py` lines 741-744): warn about and fill in each
absent fallback key, in dict order. -/
def applyFallbacks (m : JObj) (collection_id : Json) :
    List (String × Json) → JObj × List CollWarning
  | [] => (m, [])
  | (k, v) :: rest =>
    if (alookup m k).isSome then applyFallbacks m collection_id rest
    else
      let r := applyFallbacks (m ++ [(k, v)]) collection_id rest
      (r.1, CollWarning.missingField collection_id k :: r.2)

/-- The summary-projection allow-list (`views.py` lines 747-750). -/
def basicKeys : List String :=
  ["stac_version", "stac_extensions", "id", "title", "description", "keywords", "version",
   "deprecated", "license", "providers", "extent", "links"]

/-- The summary projection (`views.py` line 751). -/
def projectBasic (m : JObj) : JObj :=
  m.filter fun kv => decide (kv.1 ∈ basicKeys)

/-- Result of `_normalize_collection_metadata`: the wire document plus logged
warnings, or the `KeyError` on a missing identity field, or the `TypeError`
of a nested assignment into a non-dict value. -/
inductive NormResult where
  | ok (metadata : JObj) (warnings : List CollWarning)
  | keyError (key : String)
  | typeError

/-- `_normalize_collection_metadata` (`views.py` lines 689-753). -/
def normalize_collection_metadata (metadata0 : JObj) (api_version : String)
    (full : Bool) : NormResult :=
  let m := stripPrivate metadata0
  match alookup m "id" with
  | none => .keyError "id"
  | some collection_id =>
    match versionRemap m api_version full with
    | none => .typeError
    | some (m1, w1) =>
      let m2 := applyDefaults m1 api_version collection_id
      let fb := applyFallbacks m2 collection_id (fallbackKeys api_version full)
      let m4 := if full then fb.1 else projectBasic fb.1
      .ok m4 (w1 ++ fb.2)

/-! ### Claim C2 -/

/-- C2: normalizing the record `{"id": "foobar"}` for version `"0.4.2"` with
`full = false` yields exactly the claimed object (keys shown in produced
order; JSON objects are unordered) and exactly one warning, about the missing
`extent` field. -/
theorem normalize_minimal_040_c2 :
    normalize_collection_metadata [("id", .str "foobar")] "0.4.2" false =
      .ok
        [("id", .str "foobar"),
         ("stac_version", .str "0.6.2"),
         ("links", .arr []),
         ("description", .str "foobar"),
         ("license", .str "proprietary"),
         ("extent", extentFallback)]
        [.missingField (.str "foobar") "extent"] := by
  rfl

/-! ### Lookup and filter lemmas for the normalizer -/

theorem alookup_filter_keys {α : Type} (p : String → Bool) (m : List (String × α)) (q : String) :
    alookup (m.filter fun kv => p kv.1) q = if p q then alookup m q else none := by
  induction m with
  | nil => cases hp : p q <;> simp [alookup, hp]
  | cons kv m ih =>
    obtain ⟨k1, v1⟩ := kv
    rw [List.filter_cons]
    by_cases hk : k1 = q
    · subst hk
      cases hp : p k1 with
      | true => simp [hp, alookup_cons, ih]
      | false => simp [hp, alookup_cons, ih]
    · cases hp : p k1 with
      | true => rw [if_pos (by simp [hp]), alookup_cons, if_neg hk, ih, alookup_cons, if_neg hk]
      | false =>
        rw [if_neg (by simp [hp]), ih, alookup_cons, if_neg hk]

theorem alookup_stripPrivate (m : JObj) (q : String) (h : startsWithUnderscore q = false) :
    alookup (stripPrivate m) q = alookup m q := by
  unfold stripPrivate
  rw [alookup_filter_keys (fun k => !(startsWithUnderscore k))]
  simp [h]

theorem alookup_projectBasic (m : JObj) (q : String) :
    alookup (projectBasic m) q = if q ∈ basicKeys then alookup m q else none := by
  unfold projectBasic
  rw [alookup_filter_keys (fun k => decide (k ∈ basicKeys))]
  by_cases h : q ∈ basicKeys <;> simp [h]

theorem stripPrivate_eq_self (m : JObj)
    (h : ∀ k ∈ m.map Prod.fst, startsWithUnderscore k = false) : stripPrivate m = m := by
  unfold stripPrivate
  rw [List.filter_eq_self]
  intro kv hkv
  have := h kv.1 (List.mem_map.mpr ⟨kv, hkv, rfl⟩)
  simp [this]

theorem projectBasic_idem (m : JObj) : projectBasic (projectBasic m) = projectBasic m := by
  unfold projectBasic
  rw [List.filter_eq_self]
  intro kv hkv
  exact (List.mem_filter.mp hkv).2

theorem keys_filter_sub {α : Type} (p : String × α → Bool) (m : List (String × α)) (q : String)
    (h : q ∈ (m.filter p).map Prod.fst) : q ∈ m.map Prod.fst := by
  rcases List.mem_map.mp h with ⟨kv, hkv, rfl⟩
  exact List.mem_map.mpr ⟨kv, (List.mem_filter.mp hkv).1, rfl⟩

theorem alookup_asetdefault_ne {α : Type} (m : List (String × α)) {k q : String} (v : α)
    (h : ¬(k = q)) : alookup (asetdefault m k v) q = alookup m q := by
  unfold asetdefault
  by_cases hs : (alookup m k).isSome
  · rw [if_pos hs]
  · rw [if_neg hs]
    exact alookup_append_single_ne _ _ h

theorem alookup_asetdefault_isSome {α : Type} (m : List (String × α)) (k : String) (v : α) :
    (alookup (asetdefault m k v) k).isSome = true := by
  unfold asetdefault
  by_cases hs : (alookup m k).isSome
  · rw [if_pos hs]
    exact hs
  · rw [if_neg hs]
    cases hl : alookup m k with
    | some w => simp [hl] at hs
    | none =>
      rw [alookup_append_of_none _ hl, alookup_cons]
      simp

theorem asetdefault_of_isSome {α : Type} (m : List (String × α)) (k : String) (v : α)
    (h : (alookup m k).isSome = true) : asetdefault m k v = m := by
  unfold asetdefault
  rw [if_pos (by simp [h])]

theorem alookup_asetdefault_of_some {α : Type} (m : List (String × α)) (k q : String)
    (v w : α) (h : alookup m q = some w) : alookup (asetdefault m q v) k = alookup m k ∨
      asetdefault m q v = m := by
  right
  exact asetdefault_of_isSome _ _ _ (by simp [h])

theorem keys_asetdefault_sub {α : Type} (m : List (String × α)) (k q : String) (v : α)
    (h : q ∈ (asetdefault m k v).map Prod.fst) : q ∈ m.map Prod.fst ∨ q = k := by
  unfold asetdefault at h
  by_cases hs : (alookup m k).isSome
  · rw [if_pos hs] at h
    exact Or.inl h
  · rw [if_neg hs, List.map_append] at h
    rcases List.mem_append.mp h with h1 | h1
    · exact Or.inl h1
    · simp at h1
      exact Or.inr h1

theorem keys_aset_sub {α : Type} (m : List (String × α)) (k q : String) (v : α)
    (h : q ∈ (aset m k v).map Prod.fst) : q ∈ m.map Prod.fst ∨ q = k := by
  induction m with
  | nil => simp [aset] at h; exact Or.inr h
  | cons kv m ih =>
    obtain ⟨k1, v1⟩ := kv
    unfold aset at h
    by_cases hk : k1 = k
    · rw [if_pos hk] at h
      simp only [List.map_cons] at h
      rcases List.mem_cons.mp h with h1 | h1
      · exact Or.inl (by simp [h1])
      · exact Or.inl (List.mem_cons_of_mem _ h1)
    · rw [if_neg hk] at h
      simp only [List.map_cons] at h
      rcases List.mem_cons.mp h with h1 | h1
      · exact Or.inl (by simp [h1])
      · rcases ih h1 with h2 | h2
        · exact Or.inl (List.mem_cons_of_mem _ h2)
        · exact Or.inr h2

theorem alookup_applyFallbacks_of_some (collection_id : Json) (fbs : List (String × Json))
    (m : JObj) (q : String) (v : Json) (h : alookup m q = some v) :
    alookup (applyFallbacks m collection_id fbs).1 q = some v := by
  induction fbs generalizing m with
  | nil => exact h
  | cons kv fbs ih =>
    obtain ⟨k, w⟩ := kv
    unfold applyFallbacks
    by_cases hs : (alookup m k).isSome
    · rw [if_pos hs]
      exact ih m h
    · rw [if_neg hs]
      exact ih _ (alookup_append_of_some _ h)

theorem alookup_applyFallbacks_ne (collection_id : Json) (fbs : List (String × Json))
    (m : JObj) (q : String) (h : ¬(q ∈ fbs.map Prod.fst)) :
    alookup (applyFallbacks m collection_id fbs).1 q = alookup m q := by
  induction fbs generalizing m with
  | nil => rfl
  | cons kv fbs ih =>
    obtain ⟨k, w⟩ := kv
    have hk : ¬(k = q) := by
      intro hkq
      exact h (by simp [hkq])
    have h' : ¬(q ∈ fbs.map Prod.fst) := by
      intro hq
      exact h (by simp [hq])
    unfold applyFallbacks
    by_cases hs : (alookup m k).isSome
    · rw [if_pos hs]
      exact ih m h'
    · rw [if_neg hs]
      rw [ih _ h']
      exact alookup_append_single_ne _ _ hk

theorem applyFallbacks_mem_isSome (collection_id : Json) (fbs : List (String × Json))
    (m : JObj) (k : String) (v : Json) (h : (k, v) ∈ fbs) :
    (alookup (applyFallbacks m collection_id fbs).1 k).isSome = true := by
  induction fbs generalizing m with
  | nil => simp at h
  | cons kv fbs ih =>
    obtain ⟨k1, v1⟩ := kv
    unfold applyFallbacks
    rcases List.mem_cons.mp h with heq | hmem
    · injection heq with h1 h2
      subst h1
      by_cases hs : (alookup m k).isSome
      · rw [if_pos hs]
        cases hl : alookup m k with
        | none => simp [hl] at hs
        | some w =>
          rw [alookup_applyFallbacks_of_some _ _ _ _ _ hl]
          rfl
      · rw [if_neg hs]
        have hl : alookup m k = none := by
          cases hl : alookup m k with
          | none => rfl
          | some w => simp [hl] at hs
        have : alookup (m ++ [(k, v1)]) k = some v1 := by
          rw [alookup_append_of_none _ hl, alookup_cons]
          simp
        rw [alookup_applyFallbacks_of_some _ _ _ _ _ this]
        rfl
    · by_cases hs : (alookup m k1).isSome
      · rw [if_pos hs]
        exact ih m hmem
      · rw [if_neg hs]
        exact ih _ hmem

theorem applyFallbacks_all_present (collection_id : Json) (fbs : List (String × Json))
    (m : JObj) (h : ∀ kv ∈ fbs, (alookup m kv.1).isSome = true) :
    applyFallbacks m collection_id fbs = (m, []) := by
  induction fbs with
  | nil => rfl
  | cons kv fbs ih =>
    obtain ⟨k, v⟩ := kv
    unfold applyFallbacks
    rw [if_pos (by simpa using h (k, v) (List.mem_cons_self _ _))]
    exact ih fun kv hkv => h kv (List.mem_cons_of_mem _ hkv)

theorem keys_applyFallbacks_sub (collection_id : Json) (fbs : List (String × Json))
    (m : JObj) (q : String) (h : q ∈ ((applyFallbacks m collection_id fbs).1).map Prod.fst) :
    q ∈ m.map Prod.fst ∨ q ∈ fbs.map Prod.fst := by
  induction fbs generalizing m with
  | nil => exact Or.inl h
  | cons kv fbs ih =>
    obtain ⟨k, v⟩ := kv
    unfold applyFallbacks at h
    by_cases hs : (alookup m k).isSome
    · rw [if_pos hs] at h
      rcases ih m h with h1 | h1
      · exact Or.inl h1
      · exact Or.inr (List.mem_cons_of_mem _ h1)
    · rw [if_neg hs] at h
      rcases ih _ h with h1 | h1
      · rw [List.map_append] at h1
        rcases List.mem_append.mp h1 with h2 | h2
        · exact Or.inl h2
        · simp at h2
          exact Or.inr (by simp [h2])
      · exact Or.inr (List.mem_cons_of_mem _ h1)

theorem alookup_applyDefaults_ne (m : JObj) (api_version : String) (collection_id : Json)
    (q : String) (h1 : ¬("stac_version" = q)) (h2 : ¬("links" = q))
    (h3 : ¬("description" = q)) (h4 : ¬("license" = q)) :
    alookup (applyDefaults m api_version collection_id) q = alookup m q := by
  unfold applyDefaults
  rw [alookup_asetdefault_ne _ _ h4, alookup_asetdefault_ne _ _ h3,
    alookup_asetdefault_ne _ _ h2, alookup_asetdefault_ne _ _ h1]

theorem applyDefaults_of_present (m : JObj) (api_version : String) (collection_id : Json)
    (h1 : (alookup m "stac_version").isSome = true) (h2 : (alookup m "links").isSome = true)
    (h3 : (alookup m "description").isSome = true) (h4 : (alookup m "license").isSome = true) :
    applyDefaults m api_version collection_id = m := by
  unfold applyDefaults
  rw [asetdefault_of_isSome _ _ _ h1, asetdefault_of_isSome _ _ _ h2,
    asetdefault_of_isSome _ _ _ h3, asetdefault_of_isSome _ _ _ h4]

theorem applyDefaults_isSome (m : JObj) (api_version : String) (collection_id : Json)
    (q : String) (h : q ∈ (["stac_version", "links", "description", "license"] : List String)) :
    (alookup (applyDefaults m api_version collection_id) q).isSome = true := by
  simp only [List.mem_cons, List.not_mem_nil, or_false] at h
  unfold applyDefaults
  rcases h with h | h | h | h
  · subst h
    rw [alookup_asetdefault_ne _ _ (by decide), alookup_asetdefault_ne _ _ (by decide),
      alookup_asetdefault_ne _ _ (by decide)]
    exact alookup_asetdefault_isSome _ _ _
  · subst h
    rw [alookup_asetdefault_ne _ _ (by decide), alookup_asetdefault_ne _ _ (by decide)]
    exact alookup_asetdefault_isSome _ _ _
  · subst h
    rw [alookup_asetdefault_ne _ _ (by decide)]
    exact alookup_asetdefault_isSome _ _ _
  · subst h
    exact alookup_asetdefault_isSome _ _ _

theorem keys_applyDefaults_sub (m : JObj) (api_version : String) (collection_id : Json)
    (q : String) (h : q ∈ (applyDefaults m api_version collection_id).map Prod.fst) :
    q ∈ m.map Prod.fst
      ∨ q ∈ (["stac_version", "links", "description", "license"] : List String) := by
  unfold applyDefaults at h
  rcases keys_asetdefault_sub _ _ _ _ h with h | h
  · rcases keys_asetdefault_sub _ _ _ _ h with h | h
    · rcases keys_asetdefault_sub _ _ _ _ h with h | h
      · rcases keys_asetdefault_sub _ _ _ _ h with h | h
        · exact Or.inl h
        · exact Or.inr (by subst h; decide)
      · exact Or.inr (by subst h; decide)
    · exact Or.inr (by subst h; decide)
  · exact Or.inr (by subst h; decide)

theorem keys_setNested_sub (m : JObj) (k1 k2 : String) (v : Json) (mres : JObj)
    (h : setNested m k1 k2 v = some mres) (q : String) (hq : q ∈ mres.map Prod.fst) :
    q ∈ m.map Prod.fst ∨ q = k1 := by
  unfold setNested at h
  cases hl : alookup m k1 with
  | none => rw [hl] at h; exact Option.noConfusion h
  | some j =>
    rw [hl] at h
    cases j with
    | obj o =>
      have : mres = aset m k1 (.obj (aset o k2 v)) := (Option.some_inj.mp h).symm
      subst this
      exact keys_aset_sub _ _ _ _ hq
    | null => exact Option.noConfusion h
    | bool b => exact Option.noConfusion h
    | num n => exact Option.noConfusion h
    | str s => exact Option.noConfusion h
    | arr xs => exact Option.noConfusion h

theorem keys_setNested_asetdefault_sub (m : JObj) (k1 k2 : String) (v : Json) (mres : JObj)
    (h : setNested (asetdefault m k1 (.obj [])) k1 k2 v = some mres)
    (q : String) (hq : q ∈ mres.map Prod.fst) : q ∈ m.map Prod.fst ∨ q = k1 := by
  rcases keys_setNested_sub _ _ _ _ _ h q hq with h1 | h1
  · rcases keys_asetdefault_sub _ _ _ _ h1 with h2 | h2
    · exact Or.inl h2
    · exact Or.inr h2
  · exact Or.inr h1

theorem keys_versionRemap_sub (m : JObj) (api_version : String) (full : Bool)
    (m1 : JObj) (w1 : List CollWarning)
    (h : versionRemap m api_version full = some (m1, w1)) (q : String)
    (hq : q ∈ m1.map Prod.fst) :
    q ∈ m.map Prod.fst
      ∨ q ∈ (["properties", "cube:dimensions", "summaries"] : List String) := by
  simp only [versionRemap] at h
  split at h
  · split at h
    · exact absurd h (by simp)
    · rename_i x m2 heq
      have hm2 : ∀ q2, q2 ∈ m2.map Prod.fst → q2 ∈ m.map Prod.fst ∨ q2 = "properties" := by
        split at heq
        · intro q2 hq2
          exact keys_setNested_asetdefault_sub _ _ _ _ _ heq q2 hq2
        · intro q2 hq2
          rw [← Option.some_inj.mp heq] at hq2
          exact Or.inl hq2
      split at h
      · split at h
        · exact absurd h (by simp)
        · rename_i m3 heq2
          rw [Option.some_inj] at h
          injection h with h1 h2
          subst h1
          rcases keys_setNested_asetdefault_sub _ _ _ _ _ heq2 q hq with h3 | h3
          · rcases hm2 q h3 with h4 | h4
            · exact Or.inl h4
            · exact Or.inr (by rw [h4]; decide)
          · exact Or.inr (by rw [h3]; decide)
      · rw [Option.some_inj] at h
        injection h with h1 h2
        subst h1
        rcases hm2 q hq with h4 | h4
        · exact Or.inl h4
        · exact Or.inr (by rw [h4]; decide)
  · by_cases hc3 : (full && !optTruthy (alookup m "cube:dimensions")
        && optTruthy (deepGet2 m "properties" "cube:dimensions")) = true
    · rw [if_pos hc3] at h
      have hs1 : ∀ q2, q2 ∈ (aset m "cube:dimensions"
          ((deepGet2 m "properties" "cube:dimensions").getD Json.null)).map Prod.fst →
          q2 ∈ m.map Prod.fst ∨ q2 = "cube:dimensions" := by
        intro q2 hq2
        exact keys_aset_sub _ _ _ _ hq2
      split at h
      · split at h
        · exact absurd h (by simp)
        · rename_i m3 heq2
          rw [Option.some_inj] at h
          injection h with h1 h2
          subst h1
          rcases keys_setNested_asetdefault_sub _ _ _ _ _ heq2 q hq with h3 | h3
          · rcases hs1 q h3 with h4 | h4
            · exact Or.inl h4
            · exact Or.inr (by rw [h4]; decide)
          · exact Or.inr (by rw [h3]; decide)
      · rw [Option.some_inj] at h
        injection h with h1 h2
        subst h1
        rcases hs1 q hq with h4 | h4
        · exact Or.inl h4
        · exact Or.inr (by rw [h4]; decide)
    · rw [if_neg hc3] at h
      split at h
      · split at h
        · exact absurd h (by simp)
        · rename_i m3 heq2
          rw [Option.some_inj] at h
          injection h with h1 h2
          subst h1
          rcases keys_setNested_asetdefault_sub _ _ _ _ _ heq2 q hq with h3 | h3
          · exact Or.inl h3
          · exact Or.inr (by rw [h3]; decide)
      · rw [Option.some_inj] at h
        injection h with h1 h2
        subst h1
        exact Or.inl hq

theorem keys_stripPrivate_good (m : JObj) :
    ∀ k ∈ (stripPrivate m).map Prod.fst, startsWithUnderscore k = false := by
  intro k hk
  rcases List.mem_map.mp hk with ⟨kv, hkv, rfl⟩
  have := (List.mem_filter.mp hkv).2
  simpa using this

theorem fallbackKeys_good (api_version : String) (full : Bool) :
    ∀ k ∈ (fallbackKeys api_version full).map Prod.fst, startsWithUnderscore k = false := by
  intro k hk
  unfold fallbackKeys at hk
  cases full with
  | false =>
    simp at hk
    subst hk
    decide
  | true =>
    by_cases hv : vAtLeast api_version "1.0.0" = true
    · simp [hv] at hk
      rcases hk with hk | hk | hk <;> subst hk <;> decide
    · simp [hv] at hk
      rcases hk with hk | hk | hk <;> subst hk <;> decide

theorem normalize_ok_no_private (metadata0 : JObj) (api_version : String) (full : Bool)
    (out : JObj) (w : List CollWarning)
    (h : normalize_collection_metadata metadata0 api_version full = .ok out w) :
    ∀ k ∈ out.map Prod.fst, startsWithUnderscore k = false := by
  intro k hk
  simp only [normalize_collection_metadata] at h
  cases hid : alookup (stripPrivate metadata0) "id" with
  | none =>
    rw [hid] at h
    exact absurd h (by simp)
  | some cid =>
    simp only [hid] at h
    cases hrem : versionRemap (stripPrivate metadata0) api_version full with
    | none =>
      rw [hrem] at h
      exact absurd h (by simp)
    | some mw =>
      obtain ⟨mr, wr⟩ := mw
      simp only [hrem] at h
      rw [NormResult.ok.injEq] at h
      obtain ⟨hout, hw⟩ := h
      subst hout
      have hfb : k ∈ ((applyFallbacks (applyDefaults mr api_version cid) cid
          (fallbackKeys api_version full)).1).map Prod.fst := by
        cases full with
        | true => exact hk
        | false => exact keys_filter_sub _ _ _ hk
      rcases keys_applyFallbacks_sub _ _ _ _ hfb with h1 | h1
      · rcases keys_applyDefaults_sub _ _ _ _ h1 with h2 | h2
        · rcases keys_versionRemap_sub _ _ _ _ _ hrem _ h2 with h3 | h3
          · exact keys_stripPrivate_good _ _ h3
          · exact (by decide : ∀ x ∈ (["properties", "cube:dimensions", "summaries"] : List String),
              startsWithUnderscore x = false) k h3
        · exact (by decide : ∀ x ∈ (["stac_version", "links", "description", "license"] : List String),
            startsWithUnderscore x = false) k h2
      · exact fallbackKeys_good _ _ _ h1

theorem deepGet2_congr (m m' : JObj) (k1 k2 : String) (h : alookup m k1 = alookup m' k1) :
    deepGet2 m k1 k2 = deepGet2 m' k1 k2 := by
  unfold deepGet2
  rw [h]

theorem versionRemap_identity (m : JObj) (api_version : String) (full : Bool)
    (hv : vBelow api_version "1.0.0" = false)
    (hcd : optTruthy (deepGet2 m "properties" "cube:dimensions") = false)
    (heb : optTruthy (deepGet2 m "properties" "eo:bands") = false) :
    versionRemap m api_version full = some (m, []) := by
  simp only [versionRemap]
  rw [if_neg (by simp [hv])]
  rw [if_neg (by simp [heb])]
  rw [if_neg (by simp [hcd])]

/-! ### Claim C9 -/

/-- C9: for a collection record already in 1.0 shape (no compound fields
under `properties`), normalizing for a 1.0+ version does not alter the
compound field locations (nothing is copied under `properties`, and truthy
values at `cube:dimensions` and `summaries.eo:bands` are preserved in the
full rendering), and normalizing the output again with the same version and
flag returns it unchanged. -/
theorem normalize_idempotent_c9 (metadata0 : JObj) (api_version : String) (full : Bool)
    (out : JObj) (w : List CollWarning)
    (hv : vBelow api_version "1.0.0" = false)
    (hcd : optTruthy (deepGet2 metadata0 "properties" "cube:dimensions") = false)
    (heb : optTruthy (deepGet2 metadata0 "properties" "eo:bands") = false)
    (hok : normalize_collection_metadata metadata0 api_version full = .ok out w) :
    optTruthy (deepGet2 out "properties" "cube:dimensions") = false
    ∧ optTruthy (deepGet2 out "properties" "eo:bands") = false
    ∧ (full = true → optTruthy (alookup metadata0 "cube:dimensions") = true →
        alookup out "cube:dimensions" = alookup metadata0 "cube:dimensions")
    ∧ (full = true → optTruthy (deepGet2 metadata0 "summaries" "eo:bands") = true →
        deepGet2 out "summaries" "eo:bands" = deepGet2 metadata0 "summaries" "eo:bands")
    ∧ normalize_collection_metadata out api_version full = .ok out [] := by
  have hok' := hok
  have hva : vAtLeast api_version "1.0.0" = true := by simp [vAtLeast, hv]
  have hstripP : alookup (stripPrivate metadata0) "properties" = alookup metadata0 "properties" :=
    alookup_stripPrivate _ _ (by decide)
  have hstripS : alookup (stripPrivate metadata0) "summaries" = alookup metadata0 "summaries" :=
    alookup_stripPrivate _ _ (by decide)
  have hstripC : alookup (stripPrivate metadata0) "cube:dimensions"
      = alookup metadata0 "cube:dimensions" :=
    alookup_stripPrivate _ _ (by decide)
  have hcd' : optTruthy (deepGet2 (stripPrivate metadata0) "properties" "cube:dimensions")
      = false := by
    rw [deepGet2_congr _ metadata0 _ _ hstripP]
    exact hcd
  have heb' : optTruthy (deepGet2 (stripPrivate metadata0) "properties" "eo:bands") = false := by
    rw [deepGet2_congr _ metadata0 _ _ hstripP]
    exact heb
  have hremap := versionRemap_identity (stripPrivate metadata0) api_version full hv hcd' heb'
  simp only [normalize_collection_metadata] at hok
  cases hid : alookup (stripPrivate metadata0) "id" with
  | none =>
    rw [hid] at hok
    exact absurd hok (by simp)
  | some cid =>
    simp only [hid, hremap] at hok
    rw [NormResult.ok.injEq] at hok
    obtain ⟨hout, hw⟩ := hok
    -- abbreviations
    have hfbkeys : (fallbackKeys api_version full).map Prod.fst
        = if full then ["extent", "cube:dimensions", "summaries"] else ["extent"] := by
      unfold fallbackKeys
      cases full with
      | true => simp [hva]
      | false => simp
    -- lookups on the fallback-applied dict F
    have hFpres : ∀ q (v : Json),
        alookup (applyDefaults (stripPrivate metadata0) api_version cid) q = some v →
        alookup (applyFallbacks (applyDefaults (stripPrivate metadata0) api_version cid) cid
          (fallbackKeys api_version full)).1 q = some v := by
      intro q v hq
      exact alookup_applyFallbacks_of_some _ _ _ _ _ hq
    have hFpresS : ∀ q,
        (alookup (applyDefaults (stripPrivate metadata0) api_version cid) q).isSome = true →
        (alookup (applyFallbacks (applyDefaults (stripPrivate metadata0) api_version cid) cid
          (fallbackKeys api_version full)).1 q).isSome = true := by
      intro q hq
      cases hl : alookup (applyDefaults (stripPrivate metadata0) api_version cid) q with
      | none => rw [hl] at hq; simp at hq
      | some v => rw [hFpres q v hl]; rfl
    have hFp : alookup (applyFallbacks (applyDefaults (stripPrivate metadata0) api_version cid) cid
        (fallbackKeys api_version full)).1 "properties" = alookup metadata0 "properties" := by
      rw [alookup_applyFallbacks_ne _ _ _ _ (by rw [hfbkeys]; cases full <;> decide)]
      rw [alookup_applyDefaults_ne _ _ _ _ (by decide) (by decide) (by decide) (by decide)]
      exact hstripP
    have hFid : alookup (applyFallbacks (applyDefaults (stripPrivate metadata0) api_version cid) cid
        (fallbackKeys api_version full)).1 "id" = some cid := by
      apply hFpres
      rw [alookup_applyDefaults_ne _ _ _ _ (by decide) (by decide) (by decide) (by decide)]
      exact hid
    -- lookups on out for basic keys (or any key when full)
    have houtq : ∀ q : String, (q ∈ basicKeys ∨ full = true) →
        alookup out q
          = alookup (applyFallbacks (applyDefaults (stripPrivate metadata0) api_version cid) cid
              (fallbackKeys api_version full)).1 q := by
      intro q hq
      rw [← hout]
      cases full with
      | true => rfl
      | false =>
        rcases hq with hq | hq
        · rw [if_neg (by simp), alookup_projectBasic, if_pos hq]
        · exact absurd hq (by simp)
    have houtP : alookup out "properties"
        = (if full then alookup metadata0 "properties" else none) := by
      cases full with
      | true =>
        rw [if_pos rfl, houtq "properties" (Or.inr rfl)]
        exact hFp
      | false =>
        rw [if_neg (by simp), ← hout, if_neg (by simp), alookup_projectBasic, if_neg (by decide)]
    -- conjunct 1
    have hconj1 : optTruthy (deepGet2 out "properties" "cube:dimensions") = false := by
      unfold deepGet2
      rw [houtP]
      cases full with
      | true =>
        rw [if_pos rfl]
        unfold deepGet2 at hcd
        exact hcd
      | false => rw [if_neg (by simp)]; rfl
    have hconj2 : optTruthy (deepGet2 out "properties" "eo:bands") = false := by
      unfold deepGet2
      rw [houtP]
      cases full with
      | true =>
        rw [if_pos rfl]
        unfold deepGet2 at heb
        exact heb
      | false => rw [if_neg (by simp)]; rfl
    refine ⟨hconj1, hconj2, ?_, ?_, ?_⟩
    · -- conjunct 3: truthy top-level cube:dimensions preserved (full)
      intro hfull htr
      subst hfull
      cases hl : alookup metadata0 "cube:dimensions" with
      | none => rw [hl] at htr; simp [optTruthy] at htr
      | some v =>
        rw [houtq "cube:dimensions" (Or.inr rfl)]
        apply hFpres
        rw [alookup_applyDefaults_ne _ _ _ _ (by decide) (by decide) (by decide) (by decide)]
        rw [hstripC]
        exact hl
    · -- conjunct 4: summaries-located eo:bands preserved (full)
      intro hfull htr
      subst hfull
      have hsum : ∃ o, alookup metadata0 "summaries" = some (.obj o) := by
        unfold deepGet2 at htr
        cases hl : alookup metadata0 "summaries" with
        | none => rw [hl] at htr; simp [optTruthy] at htr
        | some j =>
          cases j with
          | obj o => exact ⟨o, rfl⟩
          | null => rw [hl] at htr; simp [optTruthy] at htr
          | bool b => rw [hl] at htr; simp [optTruthy] at htr
          | num n => rw [hl] at htr; simp [optTruthy] at htr
          | str s => rw [hl] at htr; simp [optTruthy] at htr
          | arr xs => rw [hl] at htr; simp [optTruthy] at htr
      rcases hsum with ⟨o, ho⟩
      have : alookup out "summaries" = alookup metadata0 "summaries" := by
        rw [houtq "summaries" (Or.inr rfl), ho]
        apply hFpres
        rw [alookup_applyDefaults_ne _ _ _ _ (by decide) (by decide) (by decide) (by decide)]
        rw [hstripS]
        exact ho
      exact deepGet2_congr _ _ _ _ this
    · -- conjunct 5: idempotence
      have hnp : ∀ k ∈ out.map Prod.fst, startsWithUnderscore k = false :=
        normalize_ok_no_private _ _ _ _ _ hok'
      have hstripOut : stripPrivate out = out := stripPrivate_eq_self _ hnp
      have houtid : alookup out "id" = some cid := by
        rw [houtq "id" (Or.inl (by decide))]
        exact hFid
      have hremap2 : versionRemap out api_version full = some (out, []) :=
        versionRemap_identity out api_version full hv hconj1 hconj2
      have hdef2 : applyDefaults out api_version cid = out := by
        apply applyDefaults_of_present
        · rw [houtq "stac_version" (Or.inl (by decide))]
          exact hFpresS _ (applyDefaults_isSome _ _ _ _ (by decide))
        · rw [houtq "links" (Or.inl (by decide))]
          exact hFpresS _ (applyDefaults_isSome _ _ _ _ (by decide))
        · rw [houtq "description" (Or.inl (by decide))]
          exact hFpresS _ (applyDefaults_isSome _ _ _ _ (by decide))
        · rw [houtq "license" (Or.inl (by decide))]
          exact hFpresS _ (applyDefaults_isSome _ _ _ _ (by decide))
      have hfb2 : applyFallbacks out cid (fallbackKeys api_version full) = (out, []) := by
        apply applyFallbacks_all_present
        intro kv hkv
        have hkmem : kv.1 ∈ (fallbackKeys api_version full).map Prod.fst :=
          List.mem_map.mpr ⟨kv, hkv, rfl⟩
        have hbasic : kv.1 ∈ basicKeys ∨ full = true := by
          cases full with
          | true => exact Or.inr rfl
          | false =>
            rw [hfbkeys] at hkmem
            simp at hkmem
            exact Or.inl (by rw [hkmem]; decide)
        rw [houtq kv.1 hbasic]
        exact applyFallbacks_mem_isSome _ _ _ _ kv.2 (by simpa using hkv)
      have hproj2 : full = false → projectBasic out = out := by
        intro hf
        subst hf
        rw [← hout, if_neg (by simp)]
        exact projectBasic_idem _
      simp only [normalize_collection_metadata]
      rw [hstripOut]
      simp only [houtid, hremap2]
      rw [hdef2, hfb2]
      cases full with
      | true => simp
      | false => simp [hproj2 rfl]

/-- Concrete 1.0-shaped collection record for the C9 witness. -/
def normIdemInput : JObj :=
  [("id", .str "foobar"),
   ("cube:dimensions", .obj [("x", .null)]),
   ("summaries", .obj [("eo:bands", .arr [.str "B02"])]),
   ("extent", .obj [])]

/-- The normalized form of `normIdemInput` for version 1.0.0, full rendering. -/
def normIdemOutput : JObj :=
  normIdemInput ++
    [("stac_version", .str "0.9.0"), ("links", .arr []),
     ("description", .str "foobar"), ("license", .str "proprietary")]

/-- Witness for C9 at a concrete 1.0-shaped record: locations unaltered and
the second normalization returns the first output unchanged. -/
theorem normalize_idempotent_c9_witness :
    optTruthy (deepGet2 normIdemOutput "properties" "cube:dimensions") = false
    ∧ alookup normIdemOutput "cube:dimensions" = alookup normIdemInput "cube:dimensions"
    ∧ deepGet2 normIdemOutput "summaries" "eo:bands"
        = deepGet2 normIdemInput "summaries" "eo:bands"
    ∧ normalize_collection_metadata normIdemOutput "1.0.0" true
        = .ok normIdemOutput [] := by
  have h := normalize_idempotent_c9 normIdemInput "1.0.0" true normIdemOutput []
    (by decide) (by decide) (by decide) rfl
  exact ⟨h.1, h.2.2.1 rfl (by decide), h.2.2.2.1 rfl (by decide), h.2.2.2.2⟩

/-! ## Batch-job and service metadata rendering (`views.py` lines 474-490 and
628-638, `backend.py` lines 37-74 and 169-197) -/

/-- A `None`-defaulted optional JSON value. -/
def optJson : Option Json → Json
  | none => .null
  | some j => j

/-- A `None`-defaulted optional string (e.g. an RFC 3339-formatted timestamp). -/
def optStr : Option String → Json
  | none => .null
  | some s => .str s

/-- Whether a JSON value is the `None` literal. -/
def isNull : Json → Bool
  | .null => true
  | _ => false

/-- `openeo.util.dict_no_none`: drop all keys whose value is `None`. -/
def dict_no_none (m : JObj) : JObj := m.filter fun kv => !(isNull kv.2)

/-- `BatchJobMetadata` (`backend.py` lines 169-190); timestamps are modelled
as their already-formatted RFC 3339 strings. -/
structure BatchJobMetadata where
  id : String
  process : JObj
  status : String
  created : Option String
  job_options : Option Json := none
  title : Option String := none
  description : Option String := none
  progress : Option Json := none
  updated : Option String := none
  plan : Option Json := none
  costs : Option Json := none
  budget : Option Json := none

/-- `BatchJobMetadata.prepare_for_json` (`backend.py` lines 192-197):
`_asdict()` in field order, timestamps formatted or `None`. -/
def BatchJobMetadata.prepare_for_json (meta : BatchJobMetadata) : JObj :=
  [("id", .str meta.id), ("process", .obj meta.process), ("status", .str meta.status),
   ("created", optStr meta.created), ("job_options", optJson meta.job_options),
   ("title", optStr meta.title), ("description", optStr meta.description),
   ("progress", optJson meta.progress), ("updated", optStr meta.updated),
   ("plan", optJson meta.plan), ("costs", optJson meta.costs),
   ("budget", optJson meta.budget)]

/-- `_jsonable_batch_job_metadata` (`views.py` lines 474-490): allow-list the
exported fields, apply the pre-1.0 renames (`process` → `process_graph`,
`created` → `submitted`, status `"created"` → `"submitted"`), drop `None`s. -/
def jsonable_batch_job_metadata (metadata : BatchJobMetadata) (full : Bool)
    (api_version : String) : JObj :=
  let d := metadata.prepare_for_json
  let fields := ["id", "title", "description", "status", "created", "updated", "plan",
    "costs", "budget"] ++ (if full then ["process", "progress"] else [])
  let d := d.filter fun kv => decide (kv.1 ∈ fields)
  let d :=
    if vBelow api_version "1.0.0" then
      let popped := apop d "process"
      let pg : Json :=
        match popped.1 with
        | some (.obj o) =>
          match alookup o "process_graph" with
          | some j => j
          | none => .null
        | _ => .null
      let d1 := aset popped.2 "process_graph" pg
      let poppedC := apop d1 "created"
      let d2 := aset poppedC.2 "submitted" (optJson poppedC.1)
      match alookup d2 "status" with
      | some (.str s) => if s = "created" then aset d2 "status" (.str "submitted") else d2
      | _ => d2
    else d
  dict_no_none d

/-- `ServiceMetadata` (`backend.py` lines 37-60). -/
structure ServiceMetadata where
  id : String
  process : JObj
  url : String
  type : String
  enabled : Bool
  attributes : Json
  title : Option String := none
  description : Option String := none
  configuration : Option Json := none
  created : Option String := none
  plan : Option String := none
  costs : Option Json := none
  budget : Option Json := none

/-- `ServiceMetadata.prepare_for_json` (`backend.py` lines 61-65). -/
def ServiceMetadata.prepare_for_json (meta : ServiceMetadata) : JObj :=
  [("id", .str meta.id), ("process", .obj meta.process), ("url", .str meta.url),
   ("type", .str meta.type), ("enabled", .bool meta.enabled),
   ("attributes", meta.attributes), ("title", optStr meta.title),
   ("description", optStr meta.description), ("configuration", optJson meta.configuration),
   ("created", optStr meta.created), ("plan", optStr meta.plan),
   ("costs", optJson meta.costs), ("budget", optJson meta.budget)]

/-- `_jsonable_service_metadata` (`views.py` lines 628-638). -/
def jsonable_service_metadata (metadata : ServiceMetadata) (full : Bool)
    (api_version : String) : JObj :=
  let d := metadata.prepare_for_json
  let d := if full then d else (apop (apop d "process").2 "attributes").2
  let d :=
    if vBelow api_version "1.0.0" then
      let popped := apop d "process"
      let pg : Json :=
        match popped.1 with
        | some (.obj o) =>
          match alookup o "process_graph" with
          | some j => j
          | none => .null
        | _ => .null
      let d1 := aset popped.2 "process_graph" pg
      let poppedCfg := apop d1 "configuration"
      let cfg := optJson poppedCfg.1
      let pval : Json := if truthy cfg then cfg else (if full then .obj [] else .null)
      let d2 := aset poppedCfg.2 "parameters" pval
      let poppedCr := apop d2 "created"
      aset poppedCr.2 "submitted" (optJson poppedCr.1)
    else d
  dict_no_none d

/-- The `billing` block of the capabilities document (`views.py` lines 241-251). -/
def billingJson : Json :=
  .obj [("currency", .str "EUR"),
        ("plans", .arr [
          .obj [("name", .str "free"),
                ("description", .str "Free plan. No limits!"),
                ("url", .str "http://openeo.org/plans/free-plan"),
                ("paid", .bool false)]])]

/-- The capabilities document built by the `index` view
(`views.py` lines 231-253), including its `_backend_deploy_metadata` entry. -/
def capabilities_document (api_version backend_version service_id title description : String)
    (production : Bool) (endpoints : List Json) (deploy_metadata : Json) : JObj :=
  [("version", .str api_version),
   ("api_version", .str api_version),
   ("backend_version", .str backend_version),
   ("stac_version", .str "0.9.0"),
   ("id", .str service_id),
   ("title", .str title),
   ("description", .str description),
   ("production", .bool production),
   ("endpoints", .arr endpoints),
   ("billing", billingJson),
   ("_backend_deploy_metadata", deploy_metadata)]

theorem keys_prepare_job (metadata : BatchJobMetadata) :
    (metadata.prepare_for_json).map Prod.fst
      = ["id", "process", "status", "created", "job_options", "title", "description",
         "progress", "updated", "plan", "costs", "budget"] := rfl

theorem keys_prepare_service (metadata : ServiceMetadata) :
    (metadata.prepare_for_json).map Prod.fst
      = ["id", "process", "url", "type", "enabled", "attributes", "title", "description",
         "configuration", "created", "plan", "costs", "budget"] := rfl

theorem keys_jsonable_job_sub (metadata : BatchJobMetadata) (full : Bool)
    (api_version : String) :
    ∀ k ∈ (jsonable_batch_job_metadata metadata full api_version).map Prod.fst,
      k ∈ (["id", "title", "description", "status", "created", "updated", "plan", "costs",
        "budget", "process", "progress", "job_options", "process_graph", "submitted"] :
        List String) := by
  intro k hk
  have hsub : (["id", "process", "status", "created", "job_options", "title", "description",
      "progress", "updated", "plan", "costs", "budget"] : List String)
      ⊆ ["id", "title", "description", "status", "created", "updated", "plan", "costs",
        "budget", "process", "progress", "job_options", "process_graph", "submitted"] := by
    decide
  simp only [jsonable_batch_job_metadata] at hk
  have hk2 := keys_filter_sub _ _ _ hk
  split at hk2
  · split at hk2
    · split at hk2
      · -- status renamed
        rcases keys_aset_sub _ _ _ _ hk2 with h | h
        · rcases keys_aset_sub _ _ _ _ h with h1 | h1
          · rcases keys_aset_sub _ _ _ _ (keys_filter_sub _ _ _ h1) with h2 | h2
            · have h3 := keys_filter_sub _ _ _ (keys_filter_sub _ _ _ h2)
              rw [keys_prepare_job] at h3
              exact hsub h3
            · subst h2; decide
          · subst h1; decide
        · subst h; decide
      · rcases keys_aset_sub _ _ _ _ hk2 with h1 | h1
        · rcases keys_aset_sub _ _ _ _ (keys_filter_sub _ _ _ h1) with h2 | h2
          · have h3 := keys_filter_sub _ _ _ (keys_filter_sub _ _ _ h2)
            rw [keys_prepare_job] at h3
            exact hsub h3
          · subst h2; decide
        · subst h1; decide
    · rcases keys_aset_sub _ _ _ _ hk2 with h1 | h1
      · rcases keys_aset_sub _ _ _ _ (keys_filter_sub _ _ _ h1) with h2 | h2
        · have h3 := keys_filter_sub _ _ _ (keys_filter_sub _ _ _ h2)
          rw [keys_prepare_job] at h3
          exact hsub h3
        · subst h2; decide
      · subst h1; decide
  · have h3 := keys_filter_sub _ _ _ hk2
    rw [keys_prepare_job] at h3
    exact hsub h3

theorem keys_jsonable_service_sub (metadata : ServiceMetadata) (full : Bool)
    (api_version : String) :
    ∀ k ∈ (jsonable_service_metadata metadata full api_version).map Prod.fst,
      k ∈ (["id", "process", "url", "type", "enabled", "attributes", "title", "description",
        "configuration", "created", "plan", "costs", "budget", "process_graph", "parameters",
        "submitted"] : List String) := by
  intro k hk
  have hsub : (["id", "process", "url", "type", "enabled", "attributes", "title",
      "description", "configuration", "created", "plan", "costs", "budget"] : List String)
      ⊆ ["id", "process", "url", "type", "enabled", "attributes", "title", "description",
        "configuration", "created", "plan", "costs", "budget", "process_graph", "parameters",
        "submitted"] := by decide
  simp only [jsonable_service_metadata] at hk
  have hk2 := keys_filter_sub _ _ _ hk
  split at hk2
  · -- pre-1.0 renames applied on top of the full/summary base dict
    rcases keys_aset_sub _ _ _ _ hk2 with h1 | h1
    · rcases keys_aset_sub _ _ _ _ (keys_filter_sub _ _ _ h1) with h2 | h2
      · rcases keys_aset_sub _ _ _ _ (keys_filter_sub _ _ _ h2) with h3 | h3
        · have h4 := keys_filter_sub _ _ _ h3
          split at h4
          · rw [keys_prepare_service] at h4
            exact hsub h4
          · have h5 := keys_filter_sub _ _ _ (keys_filter_sub _ _ _ h4)
            rw [keys_prepare_service] at h5
            exact hsub h5
        · subst h3; decide
      · subst h2; decide
    · subst h1; decide
  · split at hk2
    · rw [keys_prepare_service] at hk2
      exact hsub hk2
    · have h5 := keys_filter_sub _ _ _ (keys_filter_sub _ _ _ hk2)
      rw [keys_prepare_service] at h5
      exact hsub h5

/-! ### Claim C5 -/

/-- C5 counterexample: the capabilities document produced by the `index` view
carries the key `_backend_deploy_metadata`, which begins with the private
marker, so the claim fails for the capabilities entity family. -/
theorem private_fields_c5_counterexample :
    "_backend_deploy_metadata"
        ∈ (capabilities_document "1.0.0" "0.0.1" "openeoapi-1.0.0" "OpenEO Test API"
            "OpenEO API" false [] (.obj [])).map Prod.fst
    ∧ startsWithUnderscore "_backend_deploy_metadata" = true :=
  ⟨by decide, by decide⟩

/-- C5 (amended): for the collection, batch-job, and service renderings, at
every resolved version and rendering mode, no top-level key beginning with
the private marker appears in the produced wire document; the capabilities
document is the exception, carrying `_backend_deploy_metadata`. -/
theorem private_fields_c5 (metadata0 : JObj) (api_version : String) (full : Bool)
    (out : JObj) (w : List CollWarning)
    (hok : normalize_collection_metadata metadata0 api_version full = .ok out w)
    (job : BatchJobMetadata) (jfull : Bool) (jv : String)
    (service : ServiceMetadata) (sfull : Bool) (sv : String) :
    (∀ k ∈ out.map Prod.fst, startsWithUnderscore k = false)
    ∧ (∀ k ∈ (jsonable_batch_job_metadata job jfull jv).map Prod.fst,
        startsWithUnderscore k = false)
    ∧ (∀ k ∈ (jsonable_service_metadata service sfull sv).map Prod.fst,
        startsWithUnderscore k = false) := by
  refine ⟨normalize_ok_no_private _ _ _ _ _ hok, ?_, ?_⟩
  · intro k hk
    exact (by decide : ∀ x ∈ (["id", "title", "description", "status", "created", "updated",
        "plan", "costs", "budget", "process", "progress", "job_options", "process_graph",
        "submitted"] : List String), startsWithUnderscore x = false) k
      (keys_jsonable_job_sub job jfull jv k hk)
  · intro k hk
    exact (by decide : ∀ x ∈ (["id", "process", "url", "type", "enabled", "attributes",
        "title", "description", "configuration", "created", "plan", "costs", "budget",
        "process_graph", "parameters", "submitted"] : List String),
        startsWithUnderscore x = false) k
      (keys_jsonable_service_sub service sfull sv k hk)

/-- Concrete batch-job record for the C5 witness. -/
def c5Job : BatchJobMetadata :=
  { id := "job-1", process := [("process_graph", .obj [])], status := "created",
    created := some "2017-01-01T09:32:12Z" }

/-- Concrete service record for the C5 witness. -/
def c5Service : ServiceMetadata :=
  { id := "wmts-foo", process := [("process_graph", .obj [])],
    url := "https://oeo.net/wmts/foo", type := "WMTS", enabled := true,
    attributes := .obj [] }

/-- Collection wire document of the C5 witness input. -/
def c5CollOut : JObj :=
  [("id", .str "x"), ("stac_version", .str "0.9.0"), ("links", .arr []),
   ("description", .str "x"), ("license", .str "proprietary"),
   ("extent", extentFallback)]

/-- Witness for C5 (amended): a collection record with a `_private` field, a
batch job, and a service, rendered concretely, carry no private-marker key. -/
theorem private_fields_c5_witness :
    ¬("_private" ∈ c5CollOut.map Prod.fst)
    ∧ ¬("_x" ∈ (jsonable_batch_job_metadata c5Job false "0.4.0").map Prod.fst)
    ∧ ¬("_x" ∈ (jsonable_service_metadata c5Service false "0.4.0").map Prod.fst) := by
  have h := private_fields_c5 [("id", Json.str "x"), ("_private", Json.num 1)] "1.0.0" false
    c5CollOut [CollWarning.missingField (Json.str "x") "extent"] rfl
    c5Job false "0.4.0" c5Service false "0.4.0"
  exact ⟨fun hmem => absurd (h.1 _ hmem) (by decide),
    fun hmem => absurd (h.2.1 _ hmem) (by decide),
    fun hmem => absurd (h.2.2 _ hmem) (by decide)⟩

/-! ## Process specifications and registry (spec-modelled) -/

/-- Field lookup on a JSON object value. -/
def getField (j : Json) (k : String) : Option Json :=
  match j with
  | .obj o => alookup o k
  | _ => none

/-- Modelled from the spec: `openeo_driver.processes` is not among the
provided sources (only `tests/test_processes.py` is), so `ProcessParameter`
follows §3 of the spec: name, description, JSON schema and a `required`
flag, held in declaration order. -/
structure ProcessParameter where
  name : String
  description : String
  schema : Json
  required : Bool

/-- Modelled from the spec: `ProcessSpec` of §3 (module
`openeo_driver.processes` missing from the sources): id, description,
ordered parameters, and an optional return (description, schema). -/
structure ProcessSpec where
  id : String
  description : String
  params : List ProcessParameter
  returns : Option (String × Json)

/-- Modelled from the spec: the raster-cube sentinel schema renders as
`{"type": "object", "format": "raster-cube"}` in both wire shapes (§3). -/
def ProcessSpec.RASTERCUBE : Json :=
  .obj [("type", .str "object"), ("format", .str "raster-cube")]

/-- The `IncompleteProcessSpec` failure of `to_wire` (§4.3, §7). -/
inductive ProcessSpecError where
  | incompleteProcessSpec
deriving DecidableEq, Repr

/-- The warning-level diagnostic emitted when rendering a spec with zero
parameters (§4.3). -/
inductive ProcessSpecWarning where
  | noParameters (id : String)
deriving DecidableEq, Repr

/-- One pre-1.0 parameter entry: name maps to description, `required`
boolean, and the schema verbatim. -/
def renderParam040 (p : ProcessParameter) : String × Json :=
  (p.name, .obj [("description", .str p.description), ("required", .bool p.required),
    ("schema", p.schema)])

/-- One 1.0+ parameter object: `name`, description, `optional` (the logical
inverse of `required`), and the schema verbatim. -/
def renderParam100 (p : ProcessParameter) : Json :=
  .obj [("name", .str p.name), ("description", .str p.description),
    ("optional", .bool (!p.required)), ("schema", p.schema)]

/-- Modelled from the spec: `ProcessSpec.to_dict_040` (§4.3; source module
missing): pre-1.0 wire shape with a parameter mapping keyed by name plus the
`parameter_order` array; fails with `IncompleteProcessSpec` when no return
is declared; warns when the parameter list is empty. -/
def ProcessSpec.to_dict_040 (spec : ProcessSpec) :
    Except ProcessSpecError (JObj × List ProcessSpecWarning) :=
  match spec.returns with
  | none => .error .incompleteProcessSpec
  | some r =>
    .ok ([("id", .str spec.id), ("description", .str spec.description),
      ("parameters", .obj (spec.params.map renderParam040)),
      ("parameter_order", .arr (spec.params.map fun p => .str p.name)),
      ("returns", .obj [("description", .str r.1), ("schema", r.2)])],
      if spec.params.isEmpty then [.noParameters spec.id] else [])

/-- Modelled from the spec: `ProcessSpec.to_dict_100` (§4.3; source module
missing): 1.0+ wire shape with an ordered array of named parameter objects;
same failure and warning behaviour as the pre-1.0 rendering. -/
def ProcessSpec.to_dict_100 (spec : ProcessSpec) :
    Except ProcessSpecError (JObj × List ProcessSpecWarning) :=
  match spec.returns with
  | none => .error .incompleteProcessSpec
  | some r =>
    .ok ([("id", .str spec.id), ("description", .str spec.description),
      ("parameters", .arr (spec.params.map renderParam100)),
      ("returns", .obj [("description", .str r.1), ("schema", r.2)])],
      if spec.params.isEmpty then [.noParameters spec.id] else [])

/-! ### Claims C3 and C7 -/

/-- C3: for every spec with a declared return, the two wire shapes carry the
same parameter order (the pre-1.0 `parameter_order` array is the sequence of
`name` fields of the 1.0+ parameter array, in order), pointwise
`required = not optional`, and the same schema value verbatim. -/
theorem process_spec_dual_render_c3 (spec : ProcessSpec) (r : String × Json)
    (hr : spec.returns = some r) :
    ∃ d040 w040 d100 w100,
      spec.to_dict_040 = .ok (d040, w040) ∧ spec.to_dict_100 = .ok (d100, w100)
      ∧ ∃ ps040 ps100,
          alookup d040 "parameters" = some (.obj ps040)
          ∧ alookup d100 "parameters" = some (.arr ps100)
          ∧ alookup d040 "parameter_order" = some (.arr (ps040.map fun kv => .str kv.1))
          ∧ ps100.map (fun j => getField j "name")
              = ps040.map (fun kv => some (.str kv.1))
          ∧ ps040.length = ps100.length
          ∧ ∀ i (h1 : i < ps040.length) (h2 : i < ps100.length),
              (∃ req : Bool,
                getField (ps040.get ⟨i, h1⟩).2 "required" = some (.bool req)
                ∧ getField (ps100.get ⟨i, h2⟩) "optional" = some (.bool (!req)))
              ∧ getField (ps040.get ⟨i, h1⟩).2 "schema"
                  = getField (ps100.get ⟨i, h2⟩) "schema" := by
  refine ⟨[("id", .str spec.id), ("description", .str spec.description),
      ("parameters", .obj (spec.params.map renderParam040)),
      ("parameter_order", .arr (spec.params.map fun p => .str p.name)),
      ("returns", .obj [("description", .str r.1), ("schema", r.2)])],
    (if spec.params.isEmpty then [.noParameters spec.id] else []),
    [("id", .str spec.id), ("description", .str spec.description),
      ("parameters", .arr (spec.params.map renderParam100)),
      ("returns", .obj [("description", .str r.1), ("schema", r.2)])],
    (if spec.params.isEmpty then [.noParameters spec.id] else []),
    ?_, ?_, spec.params.map renderParam040, spec.params.map renderParam100,
    ?_, ?_, ?_, ?_, ?_, ?_⟩
  · unfold ProcessSpec.to_dict_040
    rw [hr]
  · unfold ProcessSpec.to_dict_100
    rw [hr]
  · rfl
  · rfl
  · simp [alookup, List.map_map, Function.comp, renderParam040]
  · simp [List.map_map, Function.comp, renderParam100, renderParam040, getField, alookup]
  · simp
  · intro i h1 h2
    simp only [List.get_eq_getElem, List.getElem_map]
    refine ⟨⟨(spec.params.get ⟨i, by simpa using h1⟩).required, ?_, ?_⟩, ?_⟩
    · rfl
    · rfl
    · rfl

/-- The `mean` process specification from the conformance tests
(`test_processes.py` lines 7-59), for the C3 witness. -/
def meanSpec : ProcessSpec :=
  { id := "mean", description := "Mean value",
    params := [
      { name := "input", description := "Input data",
        schema := .obj [("type", .str "array"), ("items", .obj [("type", .str "number")])],
        required := true },
      { name := "mask", description := "The mask", schema := ProcessSpec.RASTERCUBE,
        required := false }],
    returns := some ("Mean value of data", .obj [("type", .str "number")]) }

/-- Witness for C3 at the `mean` specification. -/
theorem process_spec_dual_render_c3_witness :
    ∃ d040 w040 d100 w100,
      meanSpec.to_dict_040 = .ok (d040, w040) ∧ meanSpec.to_dict_100 = .ok (d100, w100)
      ∧ ∃ ps040 ps100,
          alookup d040 "parameters" = some (.obj ps040)
          ∧ alookup d100 "parameters" = some (.arr ps100)
          ∧ alookup d040 "parameter_order" = some (.arr (ps040.map fun kv => .str kv.1))
          ∧ ps100.map (fun j => getField j "name")
              = ps040.map (fun kv => some (.str kv.1))
          ∧ ps040.length = ps100.length := by
  obtain ⟨d040, w040, d100, w100, h1, h2, ps040, ps100, h3, h4, h5, h6, h7, h8⟩ :=
    process_spec_dual_render_c3 meanSpec
      ("Mean value of data", .obj [("type", .str "number")]) rfl
  exact ⟨d040, w040, d100, w100, h1, h2, ps040, ps100, h3, h4, h5, h6, h7⟩

/-- C7: a spec with no declared return fails to render in either wire shape
with `IncompleteProcessSpec`; a spec with a return and zero parameters
renders successfully in both shapes and emits exactly one warning-level
diagnostic. -/
theorem process_spec_render_errors_c7 (spec : ProcessSpec) :
    (spec.returns = none →
      spec.to_dict_040 = .error .incompleteProcessSpec
      ∧ spec.to_dict_100 = .error .incompleteProcessSpec)
    ∧ (∀ r, spec.returns = some r → spec.params = [] →
      (∃ d040, spec.to_dict_040 = .ok (d040, [.noParameters spec.id]))
      ∧ (∃ d100, spec.to_dict_100 = .ok (d100, [.noParameters spec.id]))) := by
  constructor
  · intro h
    unfold ProcessSpec.to_dict_040 ProcessSpec.to_dict_100
    rw [h]
    exact ⟨rfl, rfl⟩
  · intro r hr hp
    unfold ProcessSpec.to_dict_040 ProcessSpec.to_dict_100
    rw [hr, hp]
    exact ⟨⟨_, rfl⟩, ⟨_, rfl⟩⟩

/-- Witness for C7: the return-less spec `foo` fails in both shapes; the
parameter-less spec `bar` renders with exactly the empty-parameters warning. -/
theorem process_spec_render_errors_c7_witness :
    ProcessSpec.to_dict_040
        { id := "foo", description := "bar",
          params := [{ name := "input", description := "Input",
                       schema := ProcessSpec.RASTERCUBE, required := true }],
          returns := none }
      = .error .incompleteProcessSpec
    ∧ (∃ d040, ProcessSpec.to_dict_040
        { id := "bar", description := "no params", params := [],
          returns := some ("output", .obj [("type", .str "number")]) }
      = .ok (d040, [.noParameters "bar"])) := by
  refine ⟨?_, ?_⟩
  · exact (process_spec_render_errors_c7 _).1 rfl |>.1
  · exact ((process_spec_render_errors_c7 _).2 _ rfl rfl).1

/-- Modelled from the spec: one `ProcessSpecRegistry` entry (§4.3; module
`openeo_driver.processes` missing from the sources): the registered spec
document, if any, and the deprecation mark set by `register_deprecated`. -/
structure ProcessEntry where
  spec : Option Json
  deprecated : Bool

/-- The `ProcessUnsupported` lookup failure (§4.3, §7). -/
inductive ProcessLookupError where
  | processUnsupported (name : String)

/-- Modelled from the spec: `ProcessRegistry.lookup` (§4.3; source module
missing): fails with `ProcessUnsupported` when the id is unknown, refers to
a deprecated alias, or carries no spec document. -/
def registry_get_spec (reg : List (String × ProcessEntry)) (name : String) :
    Except ProcessLookupError Json :=
  match alookup reg name with
  | none => .error (.processUnsupported name)
  | some e =>
    if e.deprecated then .error (.processUnsupported name)
    else
      match e.spec with
      | some s => .ok s
      | none => .error (.processUnsupported name)

/-- Whether the first character list occurs contiguously in the second. -/
def isInfixList (q : List Char) : List Char → Bool
  | [] => q.isEmpty
  | c :: cs => List.isPrefixOf q (c :: cs) || isInfixList q cs

/-- Case-sensitive substring containment (Python `q in name`); the empty
query matches any id. -/
def substrMatch (q name : String) : Bool := isInfixList q.data name.data

/-- Modelled from the spec: `ProcessRegistry.search` / `get_specs` (§4.3;
source module missing): the spec documents of the non-deprecated entries
whose id contains the query substring. -/
def registry_get_specs (reg : List (String × ProcessEntry)) (substring : String) :
    List Json :=
  reg.filterMap fun kv =>
    if kv.2.deprecated then none
    else
      match kv.2.spec with
      | some s => if substrMatch substring kv.1 then some s else none
      | none => none

/-! ### Claim C8 -/

/-- C8: for every registry state, looking up an id that is unknown or
registered only as deprecated fails with `ProcessUnsupported`, and every
spec document in the search listing comes from a non-deprecated entry, for
every query; this holds for the registry of every version. -/
theorem registry_deprecated_c8 (reg : List (String × ProcessEntry)) (name : String) :
    ((alookup reg name = none ∨ (∃ e, alookup reg name = some e ∧ e.deprecated = true)) →
      registry_get_spec reg name = .error (.processUnsupported name))
    ∧ (∀ q s, s ∈ registry_get_specs reg q →
        ∃ id e, (id, e) ∈ reg ∧ e.deprecated = false ∧ e.spec = some s
          ∧ substrMatch q id = true) := by
  constructor
  · intro h
    unfold registry_get_spec
    rcases h with h | ⟨e, he, hd⟩
    · simp only [h]
    · simp only [he]
      rw [if_pos hd]
  · intro q s hs
    unfold registry_get_specs at hs
    rcases List.mem_filterMap.mp hs with ⟨kv, hkv, hf⟩
    obtain ⟨id, e⟩ := kv
    simp only at hf
    by_cases hd : e.deprecated = true
    · rw [if_pos hd] at hf
      exact Option.noConfusion hf
    · rw [if_neg hd] at hf
      cases hsp : e.spec with
      | none =>
        simp only [hsp] at hf
        exact Option.noConfusion hf
      | some s0 =>
        simp only [hsp] at hf
        by_cases hm : substrMatch q id = true
        · rw [if_pos hm] at hf
          refine ⟨id, e, hkv, by simpa using hd, ?_, hm⟩
          rw [hsp, Option.some_inj.mp hf]
        · rw [if_neg hm] at hf
          exact Option.noConfusion hf

/-- Registry state for the C8 witness: an active `mean` and a
deprecated-only `old_mean`. -/
def c8Registry : List (String × ProcessEntry) :=
  [("mean", { spec := some (.obj [("id", .str "mean")]), deprecated := false }),
   ("old_mean", { spec := none, deprecated := true })]

/-- Witness for C8: deprecated and unknown lookups fail, and the spec listed
for the query `"ea"` comes from the active non-deprecated entry. -/
theorem registry_deprecated_c8_witness :
    registry_get_spec c8Registry "old_mean" = .error (.processUnsupported "old_mean")
    ∧ registry_get_spec c8Registry "nonexistent" = .error (.processUnsupported "nonexistent")
    ∧ ∃ id e, (id, e) ∈ c8Registry ∧ e.deprecated = false
        ∧ e.spec = some (.obj [("id", .str "mean")]) ∧ substrMatch "ea" id = true := by
  refine ⟨?_, ?_, ?_⟩
  · exact (registry_deprecated_c8 c8Registry "old_mean").1
      (Or.inr ⟨{ spec := none, deprecated := true }, rfl, rfl⟩)
  · exact (registry_deprecated_c8 c8Registry "nonexistent").1 (Or.inl rfl)
  · refine (registry_deprecated_c8 c8Registry "x").2 "ea" (.obj [("id", .str "mean")]) ?_
    show Json.obj [("id", .str "mean")] ∈ registry_get_specs c8Registry "ea"
    have : registry_get_specs c8Registry "ea" = [.obj [("id", .str "mean")]] := rfl
    rw [this]
    exact List.mem_cons_self _ _
